import Mathlib

/-!
Verification of the connection / mentorship core of the Node_backend
repository against its natural-language specification.

The relational state touched by the connections and mentors route modules
is embedded as lists of rows; each route handler is translated to a pure
function on that state.  SQL uuids are modelled as natural numbers,
presentation-only columns (timestamps, avatars, action urls, branding)
are omitted.  The pg `transaction` helper (BEGIN/COMMIT/ROLLBACK) is
modelled by an optional failure-injection parameter `failAt`: when the
k-th SQL statement of a handler fails, statements issued through the
plain autocommit `query` helper keep their earlier writes, while writes
made inside a `transaction` callback are rolled back wholesale.
-/

/-- Status column of `connection_requests` and `mentorship_requests`;
the DDL CHECK constraint restricts it to these three values. -/
inductive ReqStatus where
  | pending
  | accepted
  | rejected
deriving DecidableEq, Repr

/-- Row of the `universities` table (columns used by the core). -/
structure University where
  id : String
  name : String
  isEnabled : Bool
deriving DecidableEq, Repr

/-- Row of the `users` table (columns used by the core).
`universityId = none` models a NULL `university_id`. -/
structure User where
  id : Nat
  email : String
  passwordHash : String
  name : String
  universityId : Option String
  role : String
  isMentor : Bool
  isActive : Bool
deriving DecidableEq, Repr

/-- Row of the `connections` table. -/
structure Connection where
  id : Nat
  userId : Nat
  connectedUserId : Nat
deriving DecidableEq, Repr

/-- Row of the `connection_requests` table. -/
structure ConnectionRequest where
  id : Nat
  fromUser : Nat
  toUser : Nat
  status : ReqStatus
deriving DecidableEq, Repr

/-- Row of the `mentors` table (columns used by the core). -/
structure Mentor where
  id : Nat
  userId : Nat
  title : String
  bio : String
  expertise : List String
  availability : String
  yearsExperience : Nat
  menteesCount : Nat
  isActive : Bool
deriving DecidableEq, Repr

/-- Row of the `mentorship_requests` table. -/
structure MentorshipRequest where
  id : Nat
  mentorId : Nat
  menteeId : Nat
  message : String
  status : ReqStatus
deriving DecidableEq, Repr

/-- Row of the `notifications` table (columns used by the core). -/
structure Notification where
  userId : Nat
  ntype : String
  title : String
  message : String
  relatedId : Option Nat
deriving DecidableEq, Repr

/-- The relational state read and written by the modelled handlers. -/
structure DB where
  universities : List University
  users : List User
  connections : List Connection
  connectionRequests : List ConnectionRequest
  mentors : List Mentor
  mentorshipRequests : List MentorshipRequest
  notifications : List Notification
deriving DecidableEq, Repr

/-- Empty database, the initial state of a fresh deployment. -/
def emptyDB : DB :=
  { universities := [], users := [], connections := [],
    connectionRequests := [], mentors := [], mentorshipRequests := [],
    notifications := [] }

/-- Error payload a handler responds with: HTTP status plus detail text. -/
structure ApiError where
  status : Nat
  detail : String
deriving DecidableEq, Repr

/-- Result of a handler: a response value or an error, paired with the
database state after the handler ran. -/
abbrev HRes (α : Type) := Except ApiError α × DB

/-- Decidable equality of handler responses, for concrete evaluation. -/
instance {ε α : Type} [DecidableEq ε] [DecidableEq α] : DecidableEq (Except ε α) := fun x y =>
  match x, y with
  | Except.ok a, Except.ok b =>
    if h : a = b then Decidable.isTrue (by rw [h]) else Decidable.isFalse (by simp [h])
  | Except.ok _, Except.error _ => Decidable.isFalse (by simp)
  | Except.error _, Except.ok _ => Decidable.isFalse (by simp)
  | Except.error e, Except.error f =>
    if h : e = f then Decidable.isTrue (by rw [h]) else Decidable.isFalse (by simp [h])

/-- JavaScript truthiness of an optional string column (NULL and the
empty string are falsy), as used by `if (req.user?.university_id)`. -/
def strTruthy : Option String → Bool
  | none => false
  | some s => !(s == "")

/-- Predicate of the SQL condition
`(user_id = $a AND connected_user_id = $b) OR (user_id = $b AND connected_user_id = $a)`
used by every either-direction lookup on `connections`. -/
def connPairMatch (a b : Nat) (c : Connection) : Bool :=
  (c.userId == a && c.connectedUserId == b) || (c.userId == b && c.connectedUserId == a)

/-- Predicate of the SQL condition
`(from_user_id = $a AND to_user_id = $b) OR (from_user_id = $b AND to_user_id = $a)`
used by every either-direction lookup on `connection_requests`. -/
def reqPairMatch (a b : Nat) (r : ConnectionRequest) : Bool :=
  (r.fromUser == a && r.toUser == b) || (r.fromUser == b && r.toUser == a)

/-- SELECT id FROM connections WHERE pair in either direction: nonempty? -/
def isConnectedPair (a b : Nat) (db : DB) : Bool :=
  db.connections.any (connPairMatch a b)

/-- SELECT from connection_requests WHERE pair in either direction,
first row (`rows[0]`). -/
def findPairRequest (a b : Nat) (db : DB) : Option ConnectionRequest :=
  db.connectionRequests.find? (reqPairMatch a b)

/-- Rows produced by `SELECT ... FROM users WHERE id = $uid` (the source
of every `INSERT INTO notifications ... SELECT ... FROM users` statement:
zero rows are inserted when no such user exists). -/
def usersWithId (uid : Nat) (db : DB) : List User :=
  db.users.filter (fun u => u.id == uid)

/-- Notification rows inserted by the send-connection-request handler. -/
def connReqNotifs (target : Nat) (senderName : String) (reqId senderId : Nat) (db : DB) :
    List Notification :=
  (usersWithId senderId db).map (fun _u =>
    { userId := target, ntype := "connection_request",
      title := "New Connection Request",
      message := senderName ++ " wants to connect with you",
      relatedId := some reqId })

/-- Notification rows inserted by the accept-connection-request handler
(the message is built from the accepting user row; no related id). -/
def connAcceptNotifs (target accepterId : Nat) (db : DB) : List Notification :=
  (usersWithId accepterId db).map (fun u =>
    { userId := target, ntype := "connection_accepted",
      title := "Connection Accepted",
      message := u.name ++ " accepted your connection request",
      relatedId := none })

/-- POST /connections/request.  The handler issues four independent
autocommitted queries (1 duplicate-connection check, 2 duplicate-request
check, 3 request insert, 4 notification insert); `failAt = some k` makes
the k-th query raise, leaving the writes of the earlier queries in place
because no transaction wraps them. -/
def sendRequest (actorId : Nat) (actorName : String) (toUser : Option Nat)
    (reqId : Nat) (failAt : Option Nat) (db : DB) : HRes Unit :=
  match toUser with
  | none => (Except.error (ApiError.mk 400 "Target user ID is required"), db)
  | some tgt =>
    if tgt == actorId then
      (Except.error (ApiError.mk 400 "Cannot connect to yourself"), db)
    else if failAt == some 1 then
      (Except.error (ApiError.mk 500 "Failed to send request"), db)
    else if isConnectedPair actorId tgt db then
      (Except.error (ApiError.mk 400 "Already connected"), db)
    else if failAt == some 2 then
      (Except.error (ApiError.mk 500 "Failed to send request"), db)
    else if (findPairRequest actorId tgt db).isSome then
      (Except.error (ApiError.mk 400 "Request already exists"), db)
    else if failAt == some 3 then
      (Except.error (ApiError.mk 500 "Failed to send request"), db)
    else
      let db1 : DB := { db with connectionRequests := db.connectionRequests ++ [ConnectionRequest.mk reqId actorId tgt ReqStatus.pending] }
      if failAt == some 4 then
        (Except.error (ApiError.mk 500 "Failed to send request"), db1)
      else
        let db2 : DB := { db1 with notifications := db1.notifications ++ connReqNotifs tgt actorName reqId actorId db1 }
        (Except.ok (), db2)

/-- PUT /connections/requests/:requestId/accept.  The whole body runs
inside `transaction(...)`: on any failure (row not found or an injected
storage failure at any of the four statements) every write is rolled
back and the original state is returned with a 400 response. -/
def acceptRequest (actorId requestId connId : Nat) (failAt : Option Nat) (db : DB) :
    HRes Unit :=
  if failAt == some 1 then
    (Except.error (ApiError.mk 400 "Failed to accept request"), db)
  else
    match (db.connectionRequests.filter (fun r =>
        r.id == requestId && r.toUser == actorId && r.status == ReqStatus.pending)).head? with
    | none => (Except.error (ApiError.mk 400 "Request not found or already processed"), db)
    | some r =>
      if failAt == some 2 || failAt == some 3 || failAt == some 4 then
        (Except.error (ApiError.mk 400 "Failed to accept request"), db)
      else
        (Except.ok (),
          { db with
            connectionRequests := db.connectionRequests.map (fun q =>
              if q.id == requestId then { q with status := ReqStatus.accepted } else q),
            connections := db.connections ++ [Connection.mk connId r.fromUser r.toUser],
            notifications := db.notifications ++ connAcceptNotifs r.fromUser actorId db })

/-- PUT /connections/requests/:requestId/reject: a single UPDATE with
`WHERE id AND to_user_id AND status = pending RETURNING id`; 404 when no
row matched. -/
def rejectRequest (actorId requestId : Nat) (db : DB) : HRes Unit :=
  let cond := fun (r : ConnectionRequest) =>
    r.id == requestId && r.toUser == actorId && r.status == ReqStatus.pending
  if (db.connectionRequests.filter cond).isEmpty then
    (Except.error (ApiError.mk 404 "Request not found or already processed"), db)
  else
    (Except.ok (), { db with connectionRequests := db.connectionRequests.map (fun q =>
      if cond q then { q with status := ReqStatus.rejected } else q) })

/-- DELETE /connections/:connectionId (the parameter is the other user
id): deletes the pair rows in either direction, idempotently. -/
def removeConnection (actorId otherId : Nat) (db : DB) : HRes Unit :=
  (Except.ok (), { db with connections := db.connections.filter (fun c => !(connPairMatch actorId otherId c)) })

/-- Response shape of GET /connections/check/:userId:
`{is_connected: true}`, `{is_connected: false, request_status: s}`, or
`{is_connected: false}`. -/
inductive ConnStatusResp where
  | connected
  | requestStatus (s : ReqStatus)
  | none
deriving DecidableEq, Repr

/-- GET /connections/check/:userId: the connections table is consulted
first; only when no row matches is `connection_requests` consulted, and
the status of the first matching row of either direction is returned. -/
def checkStatus (actorId otherId : Nat) (db : DB) : ConnStatusResp :=
  if isConnectedPair actorId otherId db then ConnStatusResp.connected
  else
    match findPairRequest actorId otherId db with
    | some r => ConnStatusResp.requestStatus r.status
    | Option.none => ConnStatusResp.none

/-- Notification rows inserted by the request-mentorship handler. -/
def mentorshipReqNotifs (target : Nat) (menteeName : String) (reqId menteeId : Nat) (db : DB) : List Notification :=
  (usersWithId menteeId db).map (fun _u =>
    { userId := target, ntype := "mentorship_request",
      title := "New Mentorship Request",
      message := menteeName ++ " wants to be your mentee",
      relatedId := some reqId })

/-- Notification rows inserted by the accept-mentorship handler. -/
def mentorshipAcceptNotifs (target accepterId : Nat) (db : DB) : List Notification :=
  (usersWithId accepterId db).map (fun u =>
    { userId := target, ntype := "mentorship_accepted",
      title := "Mentorship Request Accepted",
      message := u.name ++ " accepted your mentorship request",
      relatedId := none })

/-- POST /mentors/:mentorId/request: duplicate check over every status,
then active-mentor lookup, self check, insert of the pending request and
notification to the mentor user (sequential autocommitted queries). -/
def requestMentorship (actorId : Nat) (actorName : String) (mentorId : Nat)
    (msg : String) (reqId : Nat) (db : DB) : HRes Unit :=
  if db.mentorshipRequests.any (fun q => q.mentorId == mentorId && q.menteeId == actorId) then
    (Except.error (ApiError.mk 400 "Request already sent"), db)
  else
    match db.mentors.find? (fun m => m.id == mentorId && m.isActive) with
    | none => (Except.error (ApiError.mk 404 "Mentor not found"), db)
    | some m =>
      if m.userId == actorId then
        (Except.error (ApiError.mk 400 "Cannot request mentorship from yourself"), db)
      else
        let db1 : DB := { db with mentorshipRequests := db.mentorshipRequests ++ [MentorshipRequest.mk reqId mentorId actorId msg ReqStatus.pending] }
        let db2 : DB := { db1 with notifications := db1.notifications ++ mentorshipReqNotifs m.userId actorName reqId actorId db1 }
        (Except.ok (), db2)

/-- Rows of the SELECT joining `mentorship_requests` with `mentors` on
`mr.mentor_id = m.id`, restricted to a pending request with the given
id (the accept-mentorship lookup). -/
def mentorshipJoin (requestId : Nat) (db : DB) : List (MentorshipRequest × Mentor) :=
  (db.mentorshipRequests.filter (fun q => q.id == requestId && q.status == ReqStatus.pending)).filterMap
    (fun q => (db.mentors.find? (fun m => m.id == q.mentorId)).map (fun m => (q, m)))

/-- PUT /mentors/requests/:requestId/accept.  Runs inside a transaction:
lookup, ownership check, status flip, `mentees_count` increment and the
mentee notification commit together or not at all. -/
def acceptMentorship (actorId requestId : Nat) (failAt : Option Nat) (db : DB) : HRes Unit :=
  if failAt == some 1 then
    (Except.error (ApiError.mk 400 "Failed to accept request"), db)
  else
    match (mentorshipJoin requestId db).head? with
    | none => (Except.error (ApiError.mk 400 "Request not found or already processed"), db)
    | some (q, m) =>
      if !(m.userId == actorId) then
        (Except.error (ApiError.mk 400 "Not authorized"), db)
      else if failAt == some 2 || failAt == some 3 || failAt == some 4 then
        (Except.error (ApiError.mk 400 "Failed to accept request"), db)
      else
        (Except.ok (),
          { db with
            mentorshipRequests := db.mentorshipRequests.map (fun r =>
              if r.id == requestId then { r with status := ReqStatus.accepted } else r),
            mentors := db.mentors.map (fun mm =>
              if mm.id == q.mentorId then { mm with menteesCount := mm.menteesCount + 1 } else mm),
            notifications := db.notifications ++ mentorshipAcceptNotifs q.menteeId actorId db })

/-- PUT /mentors/requests/:requestId/reject: ownership-checking SELECT
(join on mentors with `m.user_id = actor`), then an UPDATE of the status
to rejected keyed on the request id alone; never touches `mentors`. -/
def rejectMentorship (actorId requestId : Nat) (db : DB) : HRes Unit :=
  let owned := (db.mentorshipRequests.filter (fun q => q.id == requestId && q.status == ReqStatus.pending)).filterMap
    (fun q => (db.mentors.find? (fun m => m.id == q.mentorId)).bind
      (fun m => if m.userId == actorId then some (q, m) else none))
  if owned.isEmpty then
    (Except.error (ApiError.mk 404 "Request not found or already processed"), db)
  else
    (Except.ok (), { db with mentorshipRequests := db.mentorshipRequests.map (fun r =>
        if r.id == requestId then { r with status := ReqStatus.rejected } else r) })

/-- Scalar subquery `SELECT university_id FROM users WHERE id = $actor`
of the suggestions query: NULL when the actor row is missing or its
`university_id` is NULL. -/
def actorUniOf (actorId : Nat) (db : DB) : Option String :=
  (db.users.find? (fun u => u.id == actorId)).bind (fun u => u.universityId)

/-- SQL equality on nullable varchar columns: NULL compares false. -/
def sqlStrEq : Option String → Option String → Bool
  | some a, some b => a == b
  | _, _ => false

/-- WHERE clause of GET /connections/suggestions: same tenant as the
actor, active alumni only, not the actor, not already connected in
either direction, no pending outbound request from the actor. -/
def suggestionFilter (actorId : Nat) (db : DB) (u : User) : Bool :=
  (!(u.id == actorId)) && u.isActive && (u.role == "alumni") &&
  sqlStrEq u.universityId (actorUniOf actorId db) &&
  (!(db.connections.any (fun c =>
    (c.userId == actorId && c.connectedUserId == u.id) ||
    (c.connectedUserId == actorId && c.userId == u.id)))) &&
  (!(db.connectionRequests.any (fun r =>
    r.fromUser == actorId && r.status == ReqStatus.pending && r.toUser == u.id)))

/-- Result relation of GET /connections/suggestions: the query orders by
RANDOM() and applies LIMIT, so the response is some permutation of the
filtered rows truncated to the limit. -/
def SuggestionsResult (actorId limit : Nat) (db : DB) (res : List User) : Prop :=
  ∃ l : List User, List.Perm l (db.users.filter (suggestionFilter actorId db)) ∧ res = l.take limit

/-- Case-insensitive substring test on character lists, the semantics of
the SQL `ILIKE $percent s percent` conditions built by the handlers. -/
def containsSub (pat : List Char) : List Char → Bool
  | [] => pat.isEmpty
  | c :: t => pat.isPrefixOf (c :: t) || containsSub pat t

/-- ILIKE with a pattern wrapped in percent wildcards. -/
def ilikeContains (hay pat : String) : Bool :=
  containsSub pat.toLower.data hay.toLower.data

/-- JOIN of `mentors` with `users` on `m.user_id = u.id`. -/
def mentorJoinRows (db : DB) : List (Mentor × User) :=
  db.mentors.flatMap (fun m => (db.users.filter (fun u => u.id == m.userId)).map (fun u => (m, u)))

/-- WHERE clause of GET /mentors: active mentor rows of active mentor
users; the tenant condition is added only when the acting user has a
truthy `university_id`; expertise, availability and search filters are
added only when the corresponding query parameter is present. -/
def mentorCond (actor : User) (expertise availability search : Option String) (mu : Mentor × User) : Bool :=
  mu.1.isActive && mu.2.isMentor && mu.2.isActive &&
  (if strTruthy actor.universityId then mu.2.universityId == actor.universityId else true) &&
  (match expertise with | some e => mu.1.expertise.contains e | none => true) &&
  (match availability with | some a => mu.1.availability == a | none => true) &&
  (match search with
   | some s => ilikeContains mu.2.name s || ilikeContains mu.1.bio s || ilikeContains mu.1.title s
   | none => true)

/-- Filtered join rows of GET /mentors before ordering and paging. -/
def listMentorsFilter (actor : User) (expertise availability search : Option String) (db : DB) : List (Mentor × User) :=
  (mentorJoinRows db).filter (mentorCond actor expertise availability search)

/-- Result relation of GET /mentors: the query orders by
`years_experience DESC` (ties unspecified) and pages with LIMIT/OFFSET;
any ordering of the filtered rows is admitted, which is sound for the
membership properties proved below. -/
def ListMentorsResult (actor : User) (expertise availability search : Option String)
    (page pageSize : Nat) (db : DB) (res : List (Mentor × User)) : Prop :=
  ∃ l : List (Mentor × User), List.Perm l (listMentorsFilter actor expertise availability search db) ∧
    res = (l.drop ((page - 1) * pageSize)).take pageSize

/-- ASCII lowercasing of the presented email, the semantics of the
`email.toLowerCase()` call of the login handler. -/
def lowerStr (s : String) : String := String.mk (s.data.map Char.toLower)

/-- Value of `user.is_enabled` after the login LEFT JOIN on
`universities`: NULL when the user has no university or the slug matches
no university row. -/
def uniEnabledLookup (uid : Option String) (db : DB) : Option Bool :=
  match uid with
  | none => none
  | some t => (db.universities.find? (fun un => un.id == t)).map (fun un => un.isEnabled)

/-- Modelled from the external bcrypt collaborator: `bcrypt.compare`
succeeds exactly when the presented password matches the stored
credential. -/
def bcryptCompare (password stored : String) : Bool :=
  password == stored

/-- POST /auth/login: user lookup by lowercased email, then the
deactivated-account check, the disabled-university check (skipped for
superadmins and users without a truthy `university_id`), then the
password check; only when all pass is a token issued (modelled by the
user id). -/
def login (email password : String) (db : DB) : Except ApiError Nat :=
  match db.users.find? (fun u => u.email == lowerStr email) with
  | none => Except.error (ApiError.mk 401 "Invalid email or password")
  | some u =>
    if !u.isActive then
      Except.error (ApiError.mk 401 "Account is deactivated")
    else if (!(u.role == "superadmin")) && strTruthy u.universityId &&
        (uniEnabledLookup u.universityId db == some false) then
      Except.error (ApiError.mk 401 "University is currently disabled")
    else if !(bcryptCompare password u.passwordHash) then
      Except.error (ApiError.mk 401 "Invalid email or password")
    else
      Except.ok u.id

/-- Uniqueness constraints the seed DDL actually declares: primary keys
on every id, UNIQUE(email) on users, the ordered pair
UNIQUE(user_id, connected_user_id) on connections, the ordered pair
UNIQUE(from_user_id, to_user_id) on connection_requests,
UNIQUE(user_id) on mentors and UNIQUE(mentor_id, mentee_id) on
mentorship_requests. -/
def schemaConstraintsOk (db : DB) : Prop :=
  (db.users.map User.email).Nodup ∧ (db.users.map User.id).Nodup ∧
  (db.universities.map University.id).Nodup ∧
  (db.connections.map (fun c => (c.userId, c.connectedUserId))).Nodup ∧
  (db.connections.map Connection.id).Nodup ∧
  (db.connectionRequests.map (fun r => (r.fromUser, r.toUser))).Nodup ∧
  (db.connectionRequests.map ConnectionRequest.id).Nodup ∧
  (db.mentors.map Mentor.userId).Nodup ∧ (db.mentors.map Mentor.id).Nodup ∧
  (db.mentorshipRequests.map (fun q => (q.mentorId, q.menteeId))).Nodup ∧
  (db.mentorshipRequests.map MentorshipRequest.id).Nodup

instance (db : DB) : Decidable (schemaConstraintsOk db) := by
  unfold schemaConstraintsOk; infer_instance

/-- State after user 1 sends a connection request (id 10) to user 2 in
an empty deployment. -/
def traceSendDB : DB := (sendRequest 1 "A" (some 2) 10 none emptyDB).2

/-- State after user 2 then accepts request 10, creating connection 20. -/
def traceAcceptDB : DB := (acceptRequest 2 10 20 none traceSendDB).2

/-- Two active alumni of the same university, user 1 having sent the
pending connection request 10 to user 2. -/
def c1DB : DB := { emptyDB with users := [User.mk 1 "a@x.edu" "pw1" "Alice" (some "mit") "alumni" false true, User.mk 2 "b@x.edu" "pw2" "Bob" (some "mit") "alumni" false true], connectionRequests := [ConnectionRequest.mk 10 1 2 ReqStatus.pending] }

/-- Two active alumni of the same university with no relationship rows. -/
def c3DB : DB := { emptyDB with users := [User.mk 1 "a@x.edu" "pw1" "Alice" (some "mit") "alumni" false true, User.mk 2 "b@x.edu" "pw2" "Bob" (some "mit") "alumni" false true] }

/-- State holding reversed duplicate connection rows and reversed
duplicate request rows between users 1 and 2; every uniqueness
constraint the DDL declares is satisfied by it. -/
def c5DB : DB := { emptyDB with users := [User.mk 1 "a@x.edu" "pw1" "Alice" (some "mit") "alumni" false true, User.mk 2 "b@x.edu" "pw2" "Bob" (some "mit") "alumni" false true], connections := [Connection.mk 1 1 2, Connection.mk 2 2 1], connectionRequests := [ConnectionRequest.mk 3 1 2 ReqStatus.pending, ConnectionRequest.mk 4 2 1 ReqStatus.pending] }

/-- State with a rejected historical request from user 1 to user 2 and
no connection between them. -/
def c8DB : DB := { emptyDB with users := [User.mk 1 "a@x.edu" "pw1" "Alice" (some "mit") "alumni" false true, User.mk 2 "b@x.edu" "pw2" "Bob" (some "mit") "alumni" false true], connectionRequests := [ConnectionRequest.mk 10 1 2 ReqStatus.rejected] }

/-- State for the suggestions filter: actor Alice (1), an admin (2), a
deactivated alumni (3) and an active alumni (4), all of one tenant. -/
def c10DB : DB := { emptyDB with users := [User.mk 1 "a@x.edu" "pw1" "Alice" (some "mit") "alumni" false true, User.mk 2 "b@x.edu" "pw2" "Bob" (some "mit") "admin" false true, User.mk 3 "c@x.edu" "pw3" "Carol" (some "mit") "alumni" false false, User.mk 4 "d@x.edu" "pw4" "Dave" (some "mit") "alumni" false true] }

/-- A superadmin user bound to no university. -/
def c7Super : User := User.mk 9 "root@x.edu" "pw9" "Root" none "superadmin" false true

/-- An active alumni mentor user of the mit tenant. -/
def c7Alice : User := User.mk 1 "a@x.edu" "pw1" "Alice" (some "mit") "alumni" true true

/-- Two-tenant state with one active mentor in each tenant and a
superadmin actor. -/
def c7DB : DB := { emptyDB with universities := [University.mk "mit" "MIT" true, University.mk "diff" "Diff University" true], users := [c7Alice, User.mk 2 "b@x.edu" "pw2" "Bob" (some "diff") "alumni" true true, c7Super], mentors := [Mentor.mk 100 1 "Title1" "bio one" [] "weekly" 5 0 true, Mentor.mk 101 2 "Title2" "bio two" [] "weekly" 3 0 true] }

/-- Filtered mentor rows the mit alumni actor can receive. -/
def c7MitList : List (Mentor × User) := listMentorsFilter c7Alice none none none c7DB

/-- Filtered mentor rows the superadmin actor receives. -/
def c7SuperList : List (Mentor × User) := listMentorsFilter c7Super none none none c7DB

/-- Specification-side statement of when login must reject with an
Unauthorized error, written from the spec wording: invalid credential
(unknown email or wrong password), deactivated account, or a
non-superadmin whose owning university is disabled.  Compared against
the `login` code below. -/
def loginUnauthorizedSpec (email password : String) (db : DB) : Prop :=
  (¬ ∃ u ∈ db.users, u.email = lowerStr email) ∨
  (∃ u ∈ db.users, u.email = lowerStr email ∧
    (u.isActive = false ∨ bcryptCompare password u.passwordHash = false ∨
      (u.role ≠ "superadmin" ∧
        ∃ un ∈ db.universities, some un.id = u.universityId ∧ un.isEnabled = false)))

/-- Sequential acceptance of a batch of mentorship requests by the same
acting mentor user. -/
def acceptAll (actorId : Nat) (ids : List Nat) (db : DB) : DB :=
  ids.foldl (fun d i => (acceptMentorship actorId i none d).2) db

/-- Mentor row of the concrete mentorship state: owned by user 2 with
no mentees yet. -/
def c6M : Mentor := Mentor.mk 100 2 "Title" "bio" [] "weekly" 5 0 true

/-- Mentorship state: mentor 100 (user 2) with pending requests 11 and
12 from mentees 3 and 4 and a pending request 13 from mentee 5. -/
def c6DB : DB := { emptyDB with users := [User.mk 2 "b@x.edu" "pw2" "Bob" (some "mit") "alumni" true true, User.mk 3 "c@x.edu" "pw3" "Carol" (some "mit") "alumni" false true, User.mk 4 "d@x.edu" "pw4" "Dave" (some "mit") "alumni" false true, User.mk 5 "e@x.edu" "pw5" "Eve" (some "mit") "alumni" false true], mentors := [c6M], mentorshipRequests := [MentorshipRequest.mk 11 100 3 "hi" ReqStatus.pending, MentorshipRequest.mk 12 100 4 "hey" ReqStatus.pending, MentorshipRequest.mk 13 100 5 "yo" ReqStatus.pending] }

/-- Login state: an enabled and a disabled university, an active alumni
of each, and a deactivated alumni. -/
def c9DB : DB := { emptyDB with universities := [University.mk "mit" "MIT" true, University.mk "old" "Old U" false], users := [User.mk 1 "alice@x.edu" "secret1" "Alice" (some "mit") "alumni" false true, User.mk 2 "bob@x.edu" "secret2" "Bob" (some "old") "alumni" false true, User.mk 3 "carol@x.edu" "secret3" "Carol" (some "mit") "alumni" false false] }

/-! Single mutation steps of the modelled engines, and the states
reachable from an empty deployment through them. -/

/-- One handler invocation of the relationship or mentorship engine
(with no injected storage failure), successful or not. -/
inductive RelStep : DB → DB → Prop where
  | send (actorId : Nat) (actorName : String) (toUser : Option Nat) (reqId : Nat) (db : DB) :
      RelStep db (sendRequest actorId actorName toUser reqId none db).2
  | accept (actorId requestId connId : Nat) (db : DB) :
      RelStep db (acceptRequest actorId requestId connId none db).2
  | reject (actorId requestId : Nat) (db : DB) :
      RelStep db (rejectRequest actorId requestId db).2
  | remove (actorId otherId : Nat) (db : DB) :
      RelStep db (removeConnection actorId otherId db).2
  | mentReq (actorId : Nat) (actorName : String) (mentorId : Nat) (msg : String) (reqId : Nat) (db : DB) :
      RelStep db (requestMentorship actorId actorName mentorId msg reqId db).2
  | mentAccept (actorId requestId : Nat) (db : DB) :
      RelStep db (acceptMentorship actorId requestId none db).2
  | mentReject (actorId requestId : Nat) (db : DB) :
      RelStep db (rejectMentorship actorId requestId db).2

/-- States reachable from the empty database by handler invocations. -/
inductive Reachable : DB → Prop where
  | init : Reachable emptyDB
  | step {db db2 : DB} : Reachable db → RelStep db db2 → Reachable db2

/-- Invariant of the connection subsystem: at most one connection row
per unordered pair, no connection row alongside a pending request of
the same pair, and at most one request row per unordered pair. -/
def ConnInv (db : DB) : Prop :=
  (∀ a b : Nat, db.connections.countP (connPairMatch a b) ≤ 1) ∧
  (∀ r ∈ db.connectionRequests, r.status = ReqStatus.pending →
     ∀ c ∈ db.connections, connPairMatch r.fromUser r.toUser c = false) ∧
  (∀ a b : Nat, db.connectionRequests.countP (reqPairMatch a b) ≤ 1)


/-! Generic list lemmas shared by the claim proofs. -/


/-- A head of a list is a member. -/
theorem head?_some_mem {α : Type} {l : List α} {x : α} (h : l.head? = some x) : x ∈ l := by
  cases l with
  | nil => simp at h
  | cons a t => simp at h; simp [h]

/-- A list whose filtrate is a singleton finds that element first. -/
theorem find?_eq_of_countP_le_one {α : Type} {l : List α} {p : α → Bool} {x : α}
    (hc : l.countP p ≤ 1) (hx : x ∈ l) (hpx : p x = true) : l.find? p = some x := by
  induction l with
  | nil => simp at hx
  | cons h t ih =>
    rcases List.mem_cons.mp hx with rfl | hxt
    · simp [List.find?, hpx]
    · cases hph : p h with
      | true =>
        exfalso
        have h1 : 0 < t.countP p := List.countP_pos_iff.mpr ⟨x, hxt, hpx⟩
        have h2 : (h :: t).countP p = t.countP p + 1 := by simp [List.countP_cons, hph]
        omega
      | false =>
        have : t.countP p ≤ 1 := by
          have h2 : (h :: t).countP p = t.countP p := by simp [List.countP_cons, hph]
          omega
        simp [List.find?, hph, ih this hxt]

/-- Two distinct members both satisfying a predicate force a count of
at least two. -/
theorem two_le_countP_of_ne {α : Type} {l : List α} {p : α → Bool} {x y : α}
    (hx : x ∈ l) (hy : y ∈ l) (hne : x ≠ y) (hpx : p x = true) (hpy : p y = true) :
    2 ≤ l.countP p := by
  induction l with
  | nil => simp at hx
  | cons h t ih =>
    rcases List.mem_cons.mp hx with rfl | hxt
    · have hyt : y ∈ t := by
        rcases List.mem_cons.mp hy with rfl | hyt
        · exact absurd rfl hne
        · exact hyt
      have h1 : 0 < t.countP p := List.countP_pos_iff.mpr ⟨y, hyt, hpy⟩
      have h2 : (x :: t).countP p = t.countP p + 1 := by simp [List.countP_cons, hpx]
      omega
    · rcases List.mem_cons.mp hy with rfl | hyt
      · have h1 : 0 < t.countP p := List.countP_pos_iff.mpr ⟨x, hxt, hpx⟩
        have h2 : (y :: t).countP p = t.countP p + 1 := by simp [List.countP_cons, hpy]
        omega
      · have := ih hxt hyt
        have h2 : t.countP p ≤ (h :: t).countP p := by
          rw [List.countP_cons]
          exact Nat.le_add_right _ _
        omega

/-- Duplicate-free keys bound every key count by one. -/
theorem countP_key_le_one_of_nodup {α β : Type} [DecidableEq β] {l : List α} {f : α → β}
    (h : (l.map f).Nodup) (k : β) : l.countP (fun x => f x == k) ≤ 1 := by
  induction l with
  | nil => simp
  | cons a t ih =>
    rw [List.map_cons, List.nodup_cons] at h
    cases hfa : (f a == k) with
    | true =>
      have h0 : t.countP (fun x => f x == k) = 0 := by
        rw [List.countP_eq_zero]
        intro x hx
        have hk : f a = k := by simpa using hfa
        have : f x ≠ f a := fun he => h.1 (he ▸ List.mem_map_of_mem f hx)
        simp [hk ▸ this]
      simp [List.countP_cons, hfa, h0]
    | false =>
      have := ih h.2
      simp [List.countP_cons, hfa]; omega

/-- Keys without duplicates make key-lookup agree with membership. -/
theorem find?_key_of_nodup {α β : Type} [DecidableEq β] {l : List α} {f : α → β} {x : α}
    (h : (l.map f).Nodup) (hx : x ∈ l) : l.find? (fun y => f y == f x) = some x := by
  apply find?_eq_of_countP_le_one (countP_key_le_one_of_nodup h (f x)) hx
  simp

/-- Restricting a singleton filtrate by an extra conjunct the element
satisfies leaves the filtrate unchanged. -/
theorem filter_and_of_filter_singleton {α : Type} {l : List α} {p q : α → Bool} {x : α}
    (h : l.filter p = [x]) (hq : q x = true) :
    l.filter (fun y => p y && q y) = [x] := by
  induction l with
  | nil => simp at h
  | cons a t ih =>
    cases hpa : p a with
    | true =>
      rw [List.filter_cons_of_pos hpa] at h
      have hax : a = x := by simpa using congrArg (fun l => l.head?) h
      have ht : t.filter p = [] := by simpa using congrArg (fun l => l.tail) h
      subst hax
      rw [List.filter_cons_of_pos (by simp [hpa, hq])]
      have : t.filter (fun y => p y && q y) = [] := by
        rw [List.filter_eq_nil_iff] at ht ⊢
        intro y hy
        simp [ht y hy]
      simp [this]
    | false =>
      rw [List.filter_cons_of_neg (by simp [hpa])] at h
      rw [List.filter_cons_of_neg (by simp [hpa])]
      exact ih h

/-- A singleton filtrate is found first. -/
theorem find?_of_filter_singleton {α : Type} {l : List α} {p : α → Bool} {x : α}
    (h : l.filter p = [x]) : l.find? p = some x := by
  have hx : x ∈ l.filter p := by simp [h]
  rw [List.mem_filter] at hx
  apply find?_eq_of_countP_le_one _ hx.1 hx.2
  have hc : l.countP p = (l.filter p).length := List.countP_eq_length_filter p l
  rw [hc, h]
  simp

/-! Symmetry of the either-direction pair predicates. -/

/-- The connections pair predicate does not depend on argument order. -/
theorem connPairMatch_comm (a b : Nat) (c : Connection) :
    connPairMatch a b c = connPairMatch b a c := by
  unfold connPairMatch
  rw [Bool.or_comm]

/-- The request pair predicate does not depend on argument order. -/
theorem reqPairMatch_comm (a b : Nat) (r : ConnectionRequest) :
    reqPairMatch a b r = reqPairMatch b a r := by
  unfold reqPairMatch
  rw [Bool.or_comm]

/-- Either-direction connection lookup is symmetric in any state. -/
theorem isConnectedPair_comm (a b : Nat) (db : DB) :
    isConnectedPair a b db = isConnectedPair b a db := by
  unfold isConnectedPair
  congr 1
  funext c
  exact connPairMatch_comm a b c

/-- Outcome analysis of the send-request handler, restricted to the two
tables the connection invariant mentions. -/
theorem sendRequest_snd_cases (a : Nat) (an : String) (tu : Option Nat) (rid : Nat) (db : DB) :
    (sendRequest a an tu rid none db).2.connections = db.connections ∧
    ((sendRequest a an tu rid none db).2.connectionRequests = db.connectionRequests ∨
      ∃ tgt, tu = some tgt ∧ (tgt = a → False) ∧ isConnectedPair a tgt db = false ∧
        findPairRequest a tgt db = none ∧
        (sendRequest a an tu rid none db).2.connectionRequests =
          db.connectionRequests ++ [ConnectionRequest.mk rid a tgt ReqStatus.pending]) := by
  unfold sendRequest
  cases tu with
  | none => exact ⟨rfl, Or.inl rfl⟩
  | some tgt =>
    by_cases h1 : tgt = a
    · simp [h1]
    · simp only [beq_iff_eq, h1, if_false]
      by_cases h2 : isConnectedPair a tgt db
      · simp [h2]
      · cases h3 : findPairRequest a tgt db with
        | some r => simp [h2, h3]
        | none =>
          refine ⟨?_, Or.inr ⟨tgt, rfl, h1, by simp [h2], h3, ?_⟩⟩ <;>
            simp [h2, h3]

/-- Outcome analysis of the accept-request handler on the two tables the
connection invariant mentions. -/
theorem acceptRequest_snd_cases (a rid cid : Nat) (db : DB) :
    (acceptRequest a rid cid none db).2 = db ∨
    ∃ r, (db.connectionRequests.filter (fun q =>
        q.id == rid && q.toUser == a && q.status == ReqStatus.pending)).head? = some r ∧
      (acceptRequest a rid cid none db).2.connections =
        db.connections ++ [Connection.mk cid r.fromUser r.toUser] ∧
      (acceptRequest a rid cid none db).2.connectionRequests =
        db.connectionRequests.map (fun q =>
          if q.id == rid then { q with status := ReqStatus.accepted } else q) := by
  have hf : ∀ k : Nat, ((none : Option Nat) == some k) = false := fun k => rfl
  unfold acceptRequest
  simp only [hf, Bool.false_or, if_false]
  cases h : (db.connectionRequests.filter (fun q =>
      q.id == rid && q.toUser == a && q.status == ReqStatus.pending)).head? with
  | none => simp [h]
  | some r =>
    simp only [h]
    exact Or.inr ⟨r, rfl, rfl, rfl⟩

/-- Outcome analysis of the reject-request handler on the two tables the
connection invariant mentions. -/
theorem rejectRequest_snd_cases (a rid : Nat) (db : DB) :
    (rejectRequest a rid db).2.connections = db.connections ∧
    ((rejectRequest a rid db).2.connectionRequests = db.connectionRequests ∨
      (rejectRequest a rid db).2.connectionRequests = db.connectionRequests.map (fun q =>
        if q.id == rid && q.toUser == a && q.status == ReqStatus.pending
        then { q with status := ReqStatus.rejected } else q)) := by
  simp only [rejectRequest]
  split
  · exact ⟨rfl, Or.inl rfl⟩
  · exact ⟨rfl, Or.inr rfl⟩

/-- The request-mentorship handler leaves the connection tables alone. -/
theorem requestMentorship_conn_eq (a : Nat) (an : String) (mid : Nat) (msg : String)
    (rid : Nat) (db : DB) :
    (requestMentorship a an mid msg rid db).2.connections = db.connections ∧
    (requestMentorship a an mid msg rid db).2.connectionRequests = db.connectionRequests := by
  unfold requestMentorship
  split
  · exact ⟨rfl, rfl⟩
  · split
    · exact ⟨rfl, rfl⟩
    · split
      · exact ⟨rfl, rfl⟩
      · exact ⟨rfl, rfl⟩

/-- The accept-mentorship handler leaves the connection tables alone. -/
theorem acceptMentorship_conn_eq (a rid : Nat) (db : DB) :
    (acceptMentorship a rid none db).2.connections = db.connections ∧
    (acceptMentorship a rid none db).2.connectionRequests = db.connectionRequests := by
  have hf : ∀ k : Nat, ((none : Option Nat) == some k) = false := fun k => rfl
  unfold acceptMentorship
  simp only [hf, Bool.false_or, if_false]
  cases h : (mentorshipJoin rid db).head? with
  | none => simp [h]
  | some qm =>
    simp only [h]
    refine ⟨?_, ?_⟩ <;> (repeat' split) <;> rfl

/-- The reject-mentorship handler leaves the connection tables alone. -/
theorem rejectMentorship_conn_eq (a rid : Nat) (db : DB) :
    (rejectMentorship a rid db).2.connections = db.connections ∧
    (rejectMentorship a rid db).2.connectionRequests = db.connectionRequests := by
  refine ⟨?_, ?_⟩ <;> (simp only [rejectMentorship]; split <;> rfl)

/-- Status updates do not change which pair a request row is about. -/
theorem reqPairMatch_status_update (x y rid : Nat) (s : ReqStatus) (q : ConnectionRequest) :
    reqPairMatch x y (if q.id == rid then { q with status := s } else q) = reqPairMatch x y q := by
  split <;> rfl

/-- Full-condition status updates do not change the pair either. -/
theorem reqPairMatch_cond_update (x y : Nat) (s : ReqStatus) (p : ConnectionRequest → Bool)
    (q : ConnectionRequest) :
    reqPairMatch x y (if p q then { q with status := s } else q) = reqPairMatch x y q := by
  split <;> rfl

/-- The connection invariant holds in the empty database. -/
theorem connInv_empty : ConnInv emptyDB := by
  refine ⟨fun a b => by simp [emptyDB], fun r hr => by simp [emptyDB] at hr, fun a b => by simp [emptyDB]⟩

/-- Send-request preserves the connection invariant. -/
theorem connInv_send (a : Nat) (an : String) (tu : Option Nat) (rid : Nat) (db : DB)
    (h : ConnInv db) : ConnInv (sendRequest a an tu rid none db).2 := by
  obtain ⟨h1, h2, h3⟩ := h
  obtain ⟨hcEq, hcase⟩ := sendRequest_snd_cases a an tu rid db
  rcases hcase with hreq | ⟨tgt, _htu, _hne, hnc, hnr, hreq⟩
  · refine ⟨fun x y => by rw [hcEq]; exact h1 x y, ?_, fun x y => by rw [hreq]; exact h3 x y⟩
    intro r hr hp c hcm
    rw [hreq] at hr
    rw [hcEq] at hcm
    exact h2 r hr hp c hcm
  · have hnoreq : ∀ r ∈ db.connectionRequests, reqPairMatch a tgt r = false := by
      intro r hrm
      have := List.find?_eq_none.mp hnr r hrm
      simpa using this
    have hnoconn : ∀ c ∈ db.connections, connPairMatch a tgt c = false := by
      intro c hcm
      have := List.any_eq_false.mp hnc c hcm
      simpa using this
    refine ⟨fun x y => by rw [hcEq]; exact h1 x y, ?_, ?_⟩
    · intro r hrm hp c hcm
      rw [hreq] at hrm
      rw [hcEq] at hcm
      rcases List.mem_append.mp hrm with hold | hnew
      · exact h2 r hold hp c hcm
      · have hr : r = ConnectionRequest.mk rid a tgt ReqStatus.pending := by simpa using hnew
        subst hr
        exact hnoconn c hcm
    · intro x y
      rw [hreq, List.countP_append]
      by_cases hm : reqPairMatch x y (ConnectionRequest.mk rid a tgt ReqStatus.pending) = true
      · have hxy : (a = x ∧ tgt = y) ∨ (a = y ∧ tgt = x) := by
          simpa [reqPairMatch] using hm
        have h0 : db.connectionRequests.countP (reqPairMatch x y) = 0 := by
          rw [List.countP_eq_zero]
          intro r hrm
          rcases hxy with ⟨hx, hy⟩ | ⟨hx, hy⟩
          · subst hx; subst hy; simp [hnoreq r hrm]
          · subst hx; subst hy; rw [reqPairMatch_comm]; simp [hnoreq r hrm]
        simp [h0, List.countP_cons, hm]
      · have hm0 : reqPairMatch x y (ConnectionRequest.mk rid a tgt ReqStatus.pending) = false := by
          revert hm; cases reqPairMatch x y (ConnectionRequest.mk rid a tgt ReqStatus.pending) <;> simp
        have := h3 x y
        simp [List.countP_cons, hm0]
        omega

/-- Accept-request preserves the connection invariant. -/
theorem connInv_accept (a rid cid : Nat) (db : DB) (h : ConnInv db) :
    ConnInv (acceptRequest a rid cid none db).2 := by
  obtain ⟨h1, h2, h3⟩ := h
  rcases acceptRequest_snd_cases a rid cid db with heq | ⟨r, hhead, hconn, hreq⟩
  · rw [heq]; exact ⟨h1, h2, h3⟩
  · have hrmem0 := head?_some_mem hhead
    rw [List.mem_filter] at hrmem0
    obtain ⟨hrmem, hrpred⟩ := hrmem0
    have hrparts : (r.id = rid ∧ r.toUser = a) ∧ r.status = ReqStatus.pending := by
      simpa [Bool.and_eq_true] using hrpred
    obtain ⟨⟨hrid, _hrto⟩, hrpend⟩ := hrparts
    -- a pending request of the pair appears in the mapped list only when
    -- its id differs from the accepted one and its row is unchanged
    have hqold : ∀ q ∈ (acceptRequest a rid cid none db).2.connectionRequests,
        q.status = ReqStatus.pending → q ∈ db.connectionRequests ∧ q.id ≠ rid := by
      intro q hq hqp
      rw [hreq] at hq
      obtain ⟨q0, hq0mem, hq0eq⟩ := List.mem_map.mp hq
      by_cases hid : (q0.id == rid) = true
      · rw [if_pos hid] at hq0eq
        rw [← hq0eq] at hqp
        simp at hqp
      · rw [if_neg hid] at hq0eq
        subst hq0eq
        exact ⟨hq0mem, by simpa using hid⟩
    refine ⟨?_, ?_, ?_⟩
    · intro x y
      rw [hconn, List.countP_append]
      by_cases hm : connPairMatch x y (Connection.mk cid r.fromUser r.toUser) = true
      · have hxy : (r.fromUser = x ∧ r.toUser = y) ∨ (r.fromUser = y ∧ r.toUser = x) := by
          simpa [connPairMatch] using hm
        have h0 : db.connections.countP (connPairMatch x y) = 0 := by
          rw [List.countP_eq_zero]
          intro c hcm
          have hno := h2 r hrmem hrpend c hcm
          rcases hxy with ⟨hx, hy⟩ | ⟨hx, hy⟩
          · subst hx; subst hy; simp [hno]
          · subst hx; subst hy; rw [connPairMatch_comm]; simp [hno]
        simp [h0, List.countP_cons, hm]
      · have hm0 : connPairMatch x y (Connection.mk cid r.fromUser r.toUser) = false := by
          revert hm; cases connPairMatch x y (Connection.mk cid r.fromUser r.toUser) <;> simp
        have := h1 x y
        simp [List.countP_cons, hm0]
        omega
    · intro q hq hqp c hcm
      obtain ⟨hqmem, hqid⟩ := hqold q hq hqp
      rw [hconn] at hcm
      rcases List.mem_append.mp hcm with hcold | hcnew
      · exact h2 q hqmem hqp c hcold
      · have hceq : c = Connection.mk cid r.fromUser r.toUser := by simpa using hcnew
        subst hceq
        by_contra hcontra
        have hm : connPairMatch q.fromUser q.toUser (Connection.mk cid r.fromUser r.toUser) = true := by
          revert hcontra
          cases connPairMatch q.fromUser q.toUser (Connection.mk cid r.fromUser r.toUser) <;> simp
        have hxy : (r.fromUser = q.fromUser ∧ r.toUser = q.toUser) ∨
            (r.fromUser = q.toUser ∧ r.toUser = q.fromUser) := by
          simpa [connPairMatch] using hm
        have hqmatch : reqPairMatch r.fromUser r.toUser q = true := by
          rcases hxy with ⟨hx, hy⟩ | ⟨hx, hy⟩ <;> simp [reqPairMatch, hx, hy]
        have hrmatch : reqPairMatch r.fromUser r.toUser r = true := by
          simp [reqPairMatch]
        have hqr : q ≠ r := fun he => hqid (he ▸ hrid)
        have := two_le_countP_of_ne hqmem hrmem hqr hqmatch hrmatch
        have := h3 r.fromUser r.toUser
        omega
    · intro x y
      rw [hreq, List.countP_map]
      have : (db.connectionRequests.countP fun q =>
          reqPairMatch x y (if q.id == rid then { q with status := ReqStatus.accepted } else q)) =
          db.connectionRequests.countP (reqPairMatch x y) := by
        simp only [reqPairMatch_status_update]
      rw [show (reqPairMatch x y ∘ fun q =>
          if q.id == rid then { q with status := ReqStatus.accepted } else q) =
          (fun q => reqPairMatch x y (if q.id == rid then { q with status := ReqStatus.accepted } else q)) from rfl]
      rw [this]
      exact h3 x y

/-- Reject-request preserves the connection invariant. -/
theorem connInv_reject (a rid : Nat) (db : DB) (h : ConnInv db) :
    ConnInv (rejectRequest a rid db).2 := by
  obtain ⟨h1, h2, h3⟩ := h
  obtain ⟨hcEq, hcase⟩ := rejectRequest_snd_cases a rid db
  rcases hcase with hreq | hreq
  · refine ⟨fun x y => by rw [hcEq]; exact h1 x y, ?_, fun x y => by rw [hreq]; exact h3 x y⟩
    intro r hr hp c hcm
    rw [hreq] at hr
    rw [hcEq] at hcm
    exact h2 r hr hp c hcm
  · refine ⟨fun x y => by rw [hcEq]; exact h1 x y, ?_, ?_⟩
    · intro q hq hqp c hcm
      rw [hreq] at hq
      rw [hcEq] at hcm
      obtain ⟨q0, hq0mem, hq0eq⟩ := List.mem_map.mp hq
      by_cases hc : (q0.id == rid && q0.toUser == a && q0.status == ReqStatus.pending) = true
      · rw [if_pos hc] at hq0eq
        rw [← hq0eq] at hqp
        simp at hqp
      · rw [if_neg hc] at hq0eq
        subst hq0eq
        exact h2 q0 hq0mem hqp c hcm
    · intro x y
      rw [hreq, List.countP_map]
      have hpt : (db.connectionRequests.countP fun q => reqPairMatch x y
          (if q.id == rid && q.toUser == a && q.status == ReqStatus.pending
           then { q with status := ReqStatus.rejected } else q)) =
          db.connectionRequests.countP (reqPairMatch x y) := by
        congr 1
        funext q
        exact reqPairMatch_cond_update x y ReqStatus.rejected
          (fun q => q.id == rid && q.toUser == a && q.status == ReqStatus.pending) q
      rw [show (reqPairMatch x y ∘ fun q =>
          if q.id == rid && q.toUser == a && q.status == ReqStatus.pending
          then { q with status := ReqStatus.rejected } else q) =
          (fun q => reqPairMatch x y
            (if q.id == rid && q.toUser == a && q.status == ReqStatus.pending
             then { q with status := ReqStatus.rejected } else q)) from rfl]
      rw [hpt]
      exact h3 x y

/-- Remove-connection preserves the connection invariant. -/
theorem connInv_remove (a o : Nat) (db : DB) (h : ConnInv db) :
    ConnInv (removeConnection a o db).2 := by
  obtain ⟨h1, h2, h3⟩ := h
  refine ⟨?_, ?_, fun x y => h3 x y⟩
  · intro x y
    have hsub : ((removeConnection a o db).2.connections).Sublist db.connections := by
      simp only [removeConnection]
      exact List.filter_sublist db.connections
    exact le_trans (List.Sublist.countP_le _ hsub) (h1 x y)
  · intro r hr hp c hcm
    simp only [removeConnection] at hcm
    exact h2 r hr hp c (List.mem_of_mem_filter hcm)

/-- Every handler step preserves the connection invariant. -/
theorem connInv_step {db db2 : DB} (hstep : RelStep db db2) (h : ConnInv db) : ConnInv db2 := by
  cases hstep with
  | send actorId actorName toUser reqId db => exact connInv_send actorId actorName toUser reqId db h
  | accept actorId requestId connId db => exact connInv_accept actorId requestId connId db h
  | reject actorId requestId db => exact connInv_reject actorId requestId db h
  | remove actorId otherId db => exact connInv_remove actorId otherId db h
  | mentReq actorId actorName mentorId msg reqId db =>
    obtain ⟨h1, h2, h3⟩ := h
    obtain ⟨hc, hr⟩ := requestMentorship_conn_eq actorId actorName mentorId msg reqId db
    exact ⟨fun x y => by rw [hc]; exact h1 x y,
      fun r hrm hp c hcm => h2 r (hr ▸ hrm) hp c (hc ▸ hcm),
      fun x y => by rw [hr]; exact h3 x y⟩
  | mentAccept actorId requestId db =>
    obtain ⟨h1, h2, h3⟩ := h
    obtain ⟨hc, hr⟩ := acceptMentorship_conn_eq actorId requestId db
    exact ⟨fun x y => by rw [hc]; exact h1 x y,
      fun r hrm hp c hcm => h2 r (hr ▸ hrm) hp c (hc ▸ hcm),
      fun x y => by rw [hr]; exact h3 x y⟩
  | mentReject actorId requestId db =>
    obtain ⟨h1, h2, h3⟩ := h
    obtain ⟨hc, hr⟩ := rejectMentorship_conn_eq actorId requestId db
    exact ⟨fun x y => by rw [hc]; exact h1 x y,
      fun r hrm hp c hcm => h2 r (hr ▸ hrm) hp c (hc ▸ hcm),
      fun x y => by rw [hr]; exact h3 x y⟩

/-- The connection invariant holds in every reachable state. -/
theorem reachable_connInv {db : DB} (h : Reachable db) : ConnInv db := by
  induction h with
  | init => exact connInv_empty
  | step _ hstep ih => exact connInv_step hstep ih

/-- Successful send-request inverts to its three passed checks and the
inserted pending row. -/
theorem sendRequest_ok_inversion (A B rid : Nat) (an : String) (db db2 : DB)
    (h : sendRequest A an (some B) rid none db = (Except.ok (), db2)) :
    (B = A → False) ∧ isConnectedPair A B db = false ∧ findPairRequest A B db = none ∧
    db2.connections = db.connections ∧ db2.users = db.users ∧
    db2.connectionRequests = db.connectionRequests ++ [ConnectionRequest.mk rid A B ReqStatus.pending] := by
  have hfk : ∀ k : Nat, ((none : Option Nat) == some k) = false := fun _ => rfl
  unfold sendRequest at h
  by_cases hBA : B = A
  · simp [hBA] at h
  · simp only [beq_iff_eq, hBA, if_false, hfk] at h
    by_cases hc : isConnectedPair A B db
    · simp [hc] at h
    · cases hf : findPairRequest A B db with
      | some r => simp [hc, hf] at h
      | none =>
        simp only [hc, hf, Option.isSome_none, Bool.false_eq_true, if_false, Prod.mk.injEq,
          true_and] at h
        refine ⟨hBA, by simpa using hc, rfl, ?_, ?_, ?_⟩ <;> rw [← h]

/-- C2: after user A successfully sends a connection request to user B,
a repeated send from A to B and a reverse send from B to A are both
rejected with the duplicate-request conflict while the first request is
still pending, the state is left untouched by the failed sends, and the
successful send added exactly one request row. -/
theorem claim_C2_no_duplicate_live_requests (A B rid rid2 rid3 : Nat)
    (an an2 an3 : String) (db db2 : DB)
    (h : sendRequest A an (some B) rid none db = (Except.ok (), db2)) :
    sendRequest A an2 (some B) rid2 none db2 =
      (Except.error (ApiError.mk 400 "Request already exists"), db2) ∧
    sendRequest B an3 (some A) rid3 none db2 =
      (Except.error (ApiError.mk 400 "Request already exists"), db2) ∧
    ConnectionRequest.mk rid A B ReqStatus.pending ∈ db2.connectionRequests ∧
    (ConnectionRequest.mk rid A B ReqStatus.pending).status = ReqStatus.pending ∧
    db2.connectionRequests.length = db.connectionRequests.length + 1 := by
  obtain ⟨hBA, hc, hf, hconn2, _husers2, hreq2⟩ := sendRequest_ok_inversion A B rid an db db2 h
  have hfk : ∀ k : Nat, ((none : Option Nat) == some k) = false := fun _ => rfl
  have hnewmatch : reqPairMatch A B (ConnectionRequest.mk rid A B ReqStatus.pending) = true := by
    simp [reqPairMatch]
  have hold : ∀ r ∈ db.connectionRequests, reqPairMatch A B r = false := by
    intro r hrm
    have := List.find?_eq_none.mp hf r hrm
    simpa using this
  have hfind2 : findPairRequest A B db2 =
      some (ConnectionRequest.mk rid A B ReqStatus.pending) := by
    unfold findPairRequest
    rw [hreq2, List.find?_append]
    have h1 : db.connectionRequests.find? (reqPairMatch A B) = none := by
      rw [List.find?_eq_none]
      intro r hrm
      simp [hold r hrm]
    rw [h1]
    simp [List.find?, hnewmatch]
  have hfindBA : findPairRequest B A db2 =
      some (ConnectionRequest.mk rid A B ReqStatus.pending) := by
    unfold findPairRequest
    have hswap : reqPairMatch B A = fun r => reqPairMatch A B r := by
      funext r
      rw [reqPairMatch_comm]
    unfold findPairRequest at hfind2
    rw [hswap]
    exact hfind2
  have hc2 : isConnectedPair A B db2 = false := by
    unfold isConnectedPair
    rw [hconn2]
    exact hc
  have hcBA : isConnectedPair B A db2 = false := by
    rw [isConnectedPair_comm]
    exact hc2
  refine ⟨?_, ?_, ?_, rfl, ?_⟩
  · unfold sendRequest
    simp only [beq_iff_eq, hfk, hc2, hfind2, Option.isSome_some, if_true,
      Bool.false_eq_true, if_false]
    rw [if_neg hBA]
  · unfold sendRequest
    have hAB : A = B → False := fun he => hBA he.symm
    simp only [beq_iff_eq, hfk, hcBA, hfindBA, Option.isSome_some, if_true,
      Bool.false_eq_true, if_false]
    rw [if_neg hAB]
  · rw [hreq2]
    simp
  · rw [hreq2]
    simp

/-- C2 witness at a concrete state: in an empty deployment user 1 sends
a request to user 2; both repeats are rejected as duplicates. -/
theorem claim_C2_witness :
    sendRequest 1 "A" (some 2) 10 none emptyDB = (Except.ok (), traceSendDB) ∧
    sendRequest 1 "B" (some 2) 11 none traceSendDB =
      (Except.error (ApiError.mk 400 "Request already exists"), traceSendDB) ∧
    sendRequest 2 "C" (some 1) 12 none traceSendDB =
      (Except.error (ApiError.mk 400 "Request already exists"), traceSendDB) ∧
    ConnectionRequest.mk 10 1 2 ReqStatus.pending ∈ traceSendDB.connectionRequests ∧
    (ConnectionRequest.mk 10 1 2 ReqStatus.pending).status = ReqStatus.pending ∧
    traceSendDB.connectionRequests.length = emptyDB.connectionRequests.length + 1 := by
  have h : sendRequest 1 "A" (some 2) 10 none emptyDB = (Except.ok (), traceSendDB) := rfl
  obtain ⟨h1, h2, h3, h4, h5⟩ :=
    claim_C2_no_duplicate_live_requests 1 2 10 11 12 "A" "B" "C" emptyDB traceSendDB h
  exact ⟨h, h1, h2, h3, h4, h5⟩

/-- C4: in every state reachable through the modelled handlers, a
connection between two users is reported as connected from both
directions by the status check, and exactly one connection row
represents the pair. -/
theorem claim_C4_connection_symmetry (db : DB) (hre : Reachable db) (a b : Nat)
    (hconn : isConnectedPair a b db = true) :
    checkStatus a b db = ConnStatusResp.connected ∧
    checkStatus b a db = ConnStatusResp.connected ∧
    db.connections.countP (connPairMatch a b) = 1 := by
  obtain ⟨h1, _h2, _h3⟩ := reachable_connInv hre
  have hba : isConnectedPair b a db = true := by rw [isConnectedPair_comm]; exact hconn
  refine ⟨by simp [checkStatus, hconn], by simp [checkStatus, hba], ?_⟩
  have hconn' := hconn
  unfold isConnectedPair at hconn'
  obtain ⟨c, hcm, hcp⟩ := List.any_eq_true.mp hconn'
  have hpos : 0 < db.connections.countP (connPairMatch a b) :=
    List.countP_pos_iff.mpr ⟨c, hcm, hcp⟩
  have := h1 a b
  omega

/-- C4 witness on the concrete send-accept trace between users 1 and 2. -/
theorem claim_C4_witness :
    isConnectedPair 1 2 traceAcceptDB = true ∧
    checkStatus 1 2 traceAcceptDB = ConnStatusResp.connected ∧
    checkStatus 2 1 traceAcceptDB = ConnStatusResp.connected ∧
    traceAcceptDB.connections.countP (connPairMatch 1 2) = 1 := by
  have hre : Reachable traceAcceptDB :=
    Reachable.step (Reachable.step Reachable.init (RelStep.send 1 "A" (some 2) 10 emptyDB))
      (RelStep.accept 2 10 20 traceSendDB)
  have hc : isConnectedPair 1 2 traceAcceptDB = true := by decide
  obtain ⟨ha, hb, hcnt⟩ := claim_C4_connection_symmetry traceAcceptDB hre 1 2 hc
  exact ⟨hc, ha, hb, hcnt⟩

/-- A predicate with at most one match filters to exactly its match. -/
theorem filter_eq_singleton_of_countP_le_one {α : Type} {l : List α} {p : α → Bool} {x : α}
    (hc : l.countP p ≤ 1) (hx : x ∈ l) (hpx : p x = true) : l.filter p = [x] := by
  induction l with
  | nil => simp at hx
  | cons h t ih =>
    rcases List.mem_cons.mp hx with rfl | hxt
    · rw [List.filter_cons_of_pos hpx]
      have h0 : t.countP p = 0 := by
        have h2 : (x :: t).countP p = t.countP p + 1 := by simp [List.countP_cons, hpx]
        omega
      have : t.filter p = [] := by
        rw [List.filter_eq_nil_iff]
        intro y hy
        rw [List.countP_eq_zero] at h0
        exact h0 y hy
      rw [this]
    · cases hph : p h with
      | true =>
        exfalso
        have h1 : 0 < t.countP p := List.countP_pos_iff.mpr ⟨x, hxt, hpx⟩
        have h2 : (h :: t).countP p = t.countP p + 1 := by simp [List.countP_cons, hph]
        omega
      | false =>
        rw [List.filter_cons_of_neg (by simp [hph])]
        have : t.countP p ≤ 1 := by
          have h2 : (h :: t).countP p = t.countP p := by simp [List.countP_cons, hph]
          omega
        exact ih this hxt

/-- C1: the accept-request handler succeeds exactly when a pending
request with the given id addressed to the actor exists; an injected
storage failure at any of its four transactional statements leaves the
state unchanged; on success it flips that request to accepted, inserts
exactly one connection row for its pair and one notification to its
sender, and a second accept of the same request is rejected with the
already-processed error and changes nothing. -/
theorem claim_C1_accept_request_semantics (actor rid cid cid2 : Nat) (db : DB)
    (hids : db.connectionRequests.countP (fun q => q.id == rid) ≤ 1) :
    ((acceptRequest actor rid cid none db).1 = Except.ok () ↔
      ∃ r ∈ db.connectionRequests, r.id = rid ∧ r.toUser = actor ∧ r.status = ReqStatus.pending) ∧
    (∀ k : Nat, 1 ≤ k → k ≤ 4 → (acceptRequest actor rid cid (some k) db).2 = db) ∧
    (∀ r ∈ db.connectionRequests, r.id = rid → r.toUser = actor → r.status = ReqStatus.pending →
      (acceptRequest actor rid cid none db).1 = Except.ok () ∧
      { r with status := ReqStatus.accepted } ∈ (acceptRequest actor rid cid none db).2.connectionRequests ∧
      (acceptRequest actor rid cid none db).2.connections =
        db.connections ++ [Connection.mk cid r.fromUser r.toUser] ∧
      (db.users.countP (fun u => u.id == actor) = 1 →
        ∃ n : Notification,
          (acceptRequest actor rid cid none db).2.notifications = db.notifications ++ [n] ∧
          n.userId = r.fromUser ∧ n.ntype = "connection_accepted") ∧
      acceptRequest actor rid cid2 none (acceptRequest actor rid cid none db).2 =
        (Except.error (ApiError.mk 400 "Request not found or already processed"),
          (acceptRequest actor rid cid none db).2)) := by
  have hfk : ∀ k : Nat, ((none : Option Nat) == some k) = false := fun _ => rfl
  refine ⟨?_, ?_, ?_⟩
  · constructor
    · intro hok
      unfold acceptRequest at hok
      simp only [hfk, Bool.false_or, if_false] at hok
      cases hh : (db.connectionRequests.filter (fun q =>
          q.id == rid && q.toUser == actor && q.status == ReqStatus.pending)).head? with
      | none => rw [hh] at hok; simp at hok
      | some r =>
        have hrmem := head?_some_mem hh
        rw [List.mem_filter] at hrmem
        refine ⟨r, hrmem.1, ?_⟩
        have := hrmem.2
        simp [Bool.and_eq_true] at this
        exact ⟨this.1.1, this.1.2, this.2⟩
    · rintro ⟨r, hrmem, hrid, hrto, hrst⟩
      have hrp : (r.id == rid && r.toUser == actor && r.status == ReqStatus.pending) = true := by
        simp [hrid, hrto, hrst]
      have hne : (db.connectionRequests.filter (fun q =>
          q.id == rid && q.toUser == actor && q.status == ReqStatus.pending)) ≠ [] := by
        intro hnil
        rw [List.filter_eq_nil_iff] at hnil
        exact hnil r hrmem hrp
      unfold acceptRequest
      simp only [hfk, Bool.false_or, if_false]
      cases hh : (db.connectionRequests.filter (fun q =>
          q.id == rid && q.toUser == actor && q.status == ReqStatus.pending)).head? with
      | none =>
        exfalso
        exact hne (List.head?_eq_none_iff.mp hh)
      | some r0 => rfl
  · intro k hk1 hk4
    unfold acceptRequest
    interval_cases k <;>
      simp only [Option.some.injEq, beq_iff_eq] <;>
      first
        | rfl
        | (cases hh : (db.connectionRequests.filter (fun q =>
              q.id == rid && q.toUser == actor && q.status == ReqStatus.pending)).head? <;>
            simp [hh])
  · intro r hrmem hrid hrto hrst
    have hrp1 : (fun q : ConnectionRequest => q.id == rid) r = true := by simp [hrid]
    have hf1 : db.connectionRequests.filter (fun q => q.id == rid) = [r] :=
      filter_eq_singleton_of_countP_le_one hids hrmem hrp1
    have hf2 : db.connectionRequests.filter (fun q => (q.id == rid) && (q.toUser == actor)) = [r] :=
      filter_and_of_filter_singleton hf1 (by simp [hrto])
    have hf3 : db.connectionRequests.filter (fun q =>
        q.id == rid && q.toUser == actor && q.status == ReqStatus.pending) = [r] :=
      filter_and_of_filter_singleton hf2 (by simp [hrst])
    have hh : (db.connectionRequests.filter (fun q =>
        q.id == rid && q.toUser == actor && q.status == ReqStatus.pending)).head? = some r := by
      rw [hf3]; rfl
    have hsucc : acceptRequest actor rid cid none db =
        (Except.ok (),
          { db with
            connectionRequests := db.connectionRequests.map (fun q =>
              if q.id == rid then { q with status := ReqStatus.accepted } else q),
            connections := db.connections ++ [Connection.mk cid r.fromUser r.toUser],
            notifications := db.notifications ++ connAcceptNotifs r.fromUser actor db }) := by
      unfold acceptRequest
      rw [hh]
      rfl
    refine ⟨by rw [hsucc], ?_, by rw [hsucc], ?_, ?_⟩
    · rw [hsucc]
      have : ({ r with status := ReqStatus.accepted } : ConnectionRequest) =
          (fun q : ConnectionRequest =>
            if q.id == rid then { q with status := ReqStatus.accepted } else q) r := by
        simp [hrid]
      rw [this]
      exact List.mem_map_of_mem _ hrmem
    · intro hone
      have : ∃ u : User, db.users.filter (fun u => u.id == actor) = [u] := by
        have hlen : (db.users.filter (fun u => u.id == actor)).length = 1 := by
          rw [← List.countP_eq_length_filter]
          exact hone
        exact List.length_eq_one.mp hlen
      obtain ⟨u, hu⟩ := this
      refine ⟨⟨r.fromUser, "connection_accepted", "Connection Accepted",
        u.name ++ " accepted your connection request", none⟩, ?_, rfl, rfl⟩
      rw [hsucc]
      simp only [connAcceptNotifs, usersWithId, hu, List.map_cons, List.map_nil]
    · have hmap : (acceptRequest actor rid cid none db).2.connectionRequests =
          db.connectionRequests.map (fun q =>
            if q.id == rid then { q with status := ReqStatus.accepted } else q) := by
        rw [hsucc]
      have hnil : ((acceptRequest actor rid cid none db).2.connectionRequests.filter (fun q =>
          q.id == rid && q.toUser == actor && q.status == ReqStatus.pending)) = [] := by
        rw [hmap, List.filter_eq_nil_iff]
        intro q hq
        obtain ⟨q0, hq0mem, hq0eq⟩ := List.mem_map.mp hq
        by_cases hid : (q0.id == rid) = true
        · rw [if_pos hid] at hq0eq
          rw [← hq0eq]
          simp
        · rw [if_neg hid] at hq0eq
          rw [← hq0eq]
          simp at hid
          simp [hid]
      have hh2 : ((acceptRequest actor rid cid none db).2.connectionRequests.filter (fun q =>
          q.id == rid && q.toUser == actor && q.status == ReqStatus.pending)).head? = none := by
        rw [hnil]
        rfl
      generalize hgen : (acceptRequest actor rid cid none db).2 = dbx at hh2 ⊢
      unfold acceptRequest
      rw [hh2]
      rfl

/-- C1 witness: user 2 accepts the concrete pending request 10 from
user 1; the second accept is rejected, and an injected failure at the
notification statement rolls the whole transaction back. -/
theorem claim_C1_witness :
    List.countP (fun q => q.id == 10) c1DB.connectionRequests ≤ 1 ∧
    (acceptRequest 2 10 20 none c1DB).1 = Except.ok () ∧
    ConnectionRequest.mk 10 1 2 ReqStatus.accepted ∈ (acceptRequest 2 10 20 none c1DB).2.connectionRequests ∧
    (acceptRequest 2 10 20 none c1DB).2.connections = c1DB.connections ++ [Connection.mk 20 1 2] ∧
    acceptRequest 2 10 21 none (acceptRequest 2 10 20 none c1DB).2 =
      (Except.error (ApiError.mk 400 "Request not found or already processed"),
        (acceptRequest 2 10 20 none c1DB).2) ∧
    (acceptRequest 2 10 20 (some 4) c1DB).2 = c1DB := by
  obtain ⟨hiff, hroll, heff⟩ := claim_C1_accept_request_semantics 2 10 20 21 c1DB (by decide)
  obtain ⟨hok, hmem, hconns, _hnot, hidem⟩ := heff (ConnectionRequest.mk 10 1 2 ReqStatus.pending)
    (by decide) rfl rfl rfl
  exact ⟨by decide, hok, hmem, hconns, hidem, hroll 4 (by decide) (by decide)⟩

/-- C3 counterexample: with two users and no prior rows, a storage
failure at the notification insert (the fourth statement of the send
handler) leaves the freshly inserted pending request committed and
visible although the operation failed, because the handler does not run
inside a transaction. -/
theorem claim_C3_counterexample :
    (sendRequest 1 "Alice" (some 2) 10 (some 4) c3DB).1 =
      Except.error (ApiError.mk 500 "Failed to send request") ∧
    ConnectionRequest.mk 10 1 2 ReqStatus.pending ∈
      (sendRequest 1 "Alice" (some 2) 10 (some 4) c3DB).2.connectionRequests ∧
    (sendRequest 1 "Alice" (some 2) 10 (some 4) c3DB).2.notifications = [] := by
  decide

/-- C3 amended: the send-request checks and inserts are sequential
autocommitted statements, so a failure at the notification insert leaves
the pending request row committed; only the accept handler is
transactional, rolling back every statement on failure. -/
theorem claim_C3_send_autocommit_accept_transactional (a : Nat) (an : String) (tgt rid : Nat)
    (db : DB) (hne : tgt = a → False) (hnc : isConnectedPair a tgt db = false)
    (hnr : findPairRequest a tgt db = none) :
    sendRequest a an (some tgt) rid (some 4) db =
      (Except.error (ApiError.mk 500 "Failed to send request"),
        { db with connectionRequests := db.connectionRequests ++ [ConnectionRequest.mk rid a tgt ReqStatus.pending] }) ∧
    (∀ k cid, 1 ≤ k → k ≤ 4 → (acceptRequest a rid cid (some k) db).2 = db) := by
  constructor
  · unfold sendRequest
    have hb : (tgt == a) = false := by
      rw [Bool.eq_false_iff]
      intro hx
      exact hne (by simpa using hx)
    have h1 : ((some 4 : Option Nat) == some 1) = false := rfl
    have h2 : ((some 4 : Option Nat) == some 2) = false := rfl
    have h3 : ((some 4 : Option Nat) == some 3) = false := rfl
    have h4 : ((some 4 : Option Nat) == some 4) = true := rfl
    simp only [hb, h1, h2, h3, h4, Bool.false_eq_true, if_false, hnc, hnr, Option.isSome_none,
      if_true]
  · intro k cid hk1 hk4
    unfold acceptRequest
    interval_cases k <;>
      simp only [Option.some.injEq, beq_iff_eq] <;>
      first
        | rfl
        | (cases hh : (db.connectionRequests.filter (fun q =>
              q.id == rid && q.toUser == a && q.status == ReqStatus.pending)).head? <;>
            simp [hh])

/-- C3 witness for the amended statement at the concrete two-user state. -/
theorem claim_C3_witness :
    sendRequest 1 "Alice" (some 2) 10 (some 4) c3DB =
      (Except.error (ApiError.mk 500 "Failed to send request"),
        { c3DB with connectionRequests := c3DB.connectionRequests ++ [ConnectionRequest.mk 10 1 2 ReqStatus.pending] }) ∧
    (acceptRequest 1 10 20 (some 2) c3DB).2 = c3DB := by
  obtain ⟨hsend, hacc⟩ := claim_C3_send_autocommit_accept_transactional 1 "Alice" 2 10 c3DB
    (by decide) (by decide) (by decide)
  exact ⟨hsend, hacc 2 20 (by decide) (by decide)⟩

/-- Duplicate-free ordered key pairs bound every pair count by one. -/
theorem countP_pairkey_le_one_of_nodup {α : Type} {l : List α} {f g : α → Nat}
    (h : (l.map (fun x => (f x, g x))).Nodup) (a b : Nat) :
    l.countP (fun x => f x == a && g x == b) ≤ 1 := by
  induction l with
  | nil => simp
  | cons x t ih =>
    rw [List.map_cons, List.nodup_cons] at h
    cases hp : (f x == a && g x == b) with
    | true =>
      have hfa : f x = a ∧ g x = b := by simpa [Bool.and_eq_true] using hp
      have h0 : t.countP (fun y => f y == a && g y == b) = 0 := by
        rw [List.countP_eq_zero]
        intro y hy
        have hne : (f y, g y) ≠ (f x, g x) := fun he => h.1 (he ▸ List.mem_map_of_mem _ hy)
        simp [Bool.and_eq_true]
        intro hya hyb
        exact absurd (by rw [hya, hyb, hfa.1, hfa.2]) hne
      simp [List.countP_cons, hp, h0]
    | false =>
      have := ih h.2
      simp [List.countP_cons, hp]
      omega

/-- C5 counterexample: the DDL uniqueness constraints are on ordered
pairs, so a state holding both the connection rows of users 1 and 2 in
the two opposite directions and both request directions passes every
declared constraint; the schema itself does not reject reversed
duplicates. -/
theorem claim_C5_counterexample :
    schemaConstraintsOk c5DB ∧
    c5DB.connections.countP (connPairMatch 1 2) = 2 ∧
    c5DB.connectionRequests.countP (reqPairMatch 1 2) = 2 := by
  refine ⟨by decide, by decide, by decide⟩

/-- C5 amended: the storage layer enforces uniqueness of user emails,
of the ordered pair of a connection row, of the ordered pair of a
request row, of the mentor user id and of the mentorship pair; rows
that differ only in direction are not constrained by the schema. -/
theorem claim_C5_schema_uniqueness (db : DB) (h : schemaConstraintsOk db) :
    (∀ e, db.users.countP (fun u => u.email == e) ≤ 1) ∧
    (∀ a b, db.connections.countP (fun c => c.userId == a && c.connectedUserId == b) ≤ 1) ∧
    (∀ a b, db.connectionRequests.countP (fun r => r.fromUser == a && r.toUser == b) ≤ 1) ∧
    (∀ uid, db.mentors.countP (fun m => m.userId == uid) ≤ 1) ∧
    (∀ mid mentee, db.mentorshipRequests.countP (fun q => q.mentorId == mid && q.menteeId == mentee) ≤ 1) := by
  obtain ⟨hemail, _hid, _huni, hconnp, _hcid, hreqp, _hrid, hment, _hmid, hmrq, _⟩ := h
  refine ⟨fun e => countP_key_le_one_of_nodup hemail e,
    fun a b => countP_pairkey_le_one_of_nodup hconnp a b,
    fun a b => countP_pairkey_le_one_of_nodup hreqp a b,
    fun uid => countP_key_le_one_of_nodup hment uid,
    fun mid mentee => countP_pairkey_le_one_of_nodup hmrq mid mentee⟩

/-- C5 witness: the amended uniqueness bounds evaluated on the concrete
reversed-pair state. -/
theorem claim_C5_witness :
    schemaConstraintsOk c5DB ∧
    c5DB.users.countP (fun u => u.email == "a@x.edu") ≤ 1 ∧
    c5DB.connections.countP (fun c => c.userId == 1 && c.connectedUserId == 2) ≤ 1 ∧
    c5DB.connectionRequests.countP (fun r => r.fromUser == 1 && r.toUser == 2) ≤ 1 ∧
    c5DB.mentors.countP (fun m => m.userId == 1) ≤ 1 ∧
    c5DB.mentorshipRequests.countP (fun q => q.mentorId == 1 && q.menteeId == 2) ≤ 1 := by
  have h : schemaConstraintsOk c5DB := by decide
  obtain ⟨h1, h2, h3, h4, h5⟩ := claim_C5_schema_uniqueness c5DB h
  exact ⟨h, h1 "a@x.edu", h2 1 2, h3 1 2, h4 1, h5 1 2⟩

/-- C8 counterexample: with only a rejected historical request between
two unconnected users, the status check answers with the raw request
status rejected, which is neither connected, nor a pending status with
a direction, nor none; the handler echoes any request status and drops
the direction. -/
theorem claim_C8_counterexample :
    checkStatus 1 2 c8DB = ConnStatusResp.requestStatus ReqStatus.rejected ∧
    ConnStatusResp.requestStatus ReqStatus.rejected ≠ ConnStatusResp.connected ∧
    ConnStatusResp.requestStatus ReqStatus.rejected ≠ ConnStatusResp.none ∧
    ConnStatusResp.requestStatus ReqStatus.rejected ≠
      ConnStatusResp.requestStatus ReqStatus.pending := by
  refine ⟨by decide, by decide, by decide, by decide⟩

/-- C8 amended: the status check consults the connections table first
and answers connected whenever a row of the pair exists in either
direction, regardless of requests; only otherwise does it consult the
requests table, answering the status (pending, accepted or rejected,
with no direction information) of the unique request of the pair when
one exists in either direction, and none when neither table has a row. -/
theorem claim_C8_check_status_precedence (actor other : Nat) (db : DB)
    (hpair : db.connectionRequests.countP (reqPairMatch actor other) ≤ 1) :
    (isConnectedPair actor other db = true →
      checkStatus actor other db = ConnStatusResp.connected) ∧
    (isConnectedPair actor other db = false →
      (∀ r ∈ db.connectionRequests, reqPairMatch actor other r = true →
        checkStatus actor other db = ConnStatusResp.requestStatus r.status) ∧
      ((∀ r ∈ db.connectionRequests, reqPairMatch actor other r = false) →
        checkStatus actor other db = ConnStatusResp.none)) := by
  constructor
  · intro hc
    simp [checkStatus, hc]
  · intro hc
    constructor
    · intro r hrm hrp
      have hfind : findPairRequest actor other db = some r := by
        unfold findPairRequest
        exact find?_eq_of_countP_le_one hpair hrm hrp
      simp [checkStatus, hc, hfind]
    · intro hnone
      have hfind : findPairRequest actor other db = none := by
        unfold findPairRequest
        rw [List.find?_eq_none]
        intro x hx
        simp [hnone x hx]
      simp [checkStatus, hc, hfind]

/-- C8 witness: the amended behavior evaluated on the rejected-request
state between users 1 and 2. -/
theorem claim_C8_witness :
    c8DB.connectionRequests.countP (reqPairMatch 1 2) ≤ 1 ∧
    isConnectedPair 1 2 c8DB = false ∧
    checkStatus 1 2 c8DB = ConnStatusResp.requestStatus ReqStatus.rejected := by
  obtain ⟨_h1, h2⟩ := claim_C8_check_status_precedence 1 2 c8DB (by decide)
  obtain ⟨h3, _h4⟩ := h2 (by decide)
  exact ⟨by decide, by decide,
    h3 (ConnectionRequest.mk 10 1 2 ReqStatus.rejected) (by decide) (by decide)⟩

/-- C10: any response of the suggestions endpoint contains only active
alumni other than the actor; admins, superadmins and deactivated users
are never suggested. -/
theorem claim_C10_suggestions_only_active_alumni (actorId limit : Nat) (db : DB)
    (res : List User) (h : SuggestionsResult actorId limit db res) :
    ∀ u ∈ res, u.isActive = true ∧ u.role = "alumni" ∧ u.id ≠ actorId := by
  obtain ⟨l, hperm, hres⟩ := h
  intro u hu
  have hufil : u ∈ db.users.filter (suggestionFilter actorId db) := by
    subst hres
    exact hperm.mem_iff.mp (List.take_subset _ _ hu)
  rw [List.mem_filter] at hufil
  have hp := hufil.2
  unfold suggestionFilter at hp
  simp only [Bool.and_eq_true, Bool.not_eq_true', beq_iff_eq] at hp
  exact ⟨hp.1.1.1.1.2, hp.1.1.1.2, fun he => by simp [he] at hp⟩

/-- C10 witness: on the concrete four-user tenant, the full filtered
suggestion list for Alice is a valid response and contains only the
active alumni Dave. -/
theorem claim_C10_witness :
    SuggestionsResult 1 10 c10DB (c10DB.users.filter (suggestionFilter 1 c10DB)) ∧
    c10DB.users.filter (suggestionFilter 1 c10DB) =
      [User.mk 4 "d@x.edu" "pw4" "Dave" (some "mit") "alumni" false true] ∧
    (User.mk 4 "d@x.edu" "pw4" "Dave" (some "mit") "alumni" false true).isActive = true ∧
    (User.mk 4 "d@x.edu" "pw4" "Dave" (some "mit") "alumni" false true).role = "alumni" ∧
    (User.mk 4 "d@x.edu" "pw4" "Dave" (some "mit") "alumni" false true).id ≠ 1 := by
  have hres : SuggestionsResult 1 10 c10DB (c10DB.users.filter (suggestionFilter 1 c10DB)) :=
    ⟨c10DB.users.filter (suggestionFilter 1 c10DB), List.Perm.refl _, by decide⟩
  obtain ⟨ha, hb, hc⟩ := claim_C10_suggestions_only_active_alumni 1 10 c10DB
    (c10DB.users.filter (suggestionFilter 1 c10DB)) hres
    (User.mk 4 "d@x.edu" "pw4" "Dave" (some "mit") "alumni" false true) (by decide)
  exact ⟨hres, by decide, ha, hb, hc⟩

/-- C7 counterexample: a superadmin actor with no university issues a
plain mentor listing with no filter of any kind, and the valid response
mixes users of the mit tenant and of the diff tenant: cross-tenant
results are returned although nothing requested them. -/
theorem claim_C7_counterexample :
    c7Super.role = "superadmin" ∧ c7Super.universityId = none ∧
    ListMentorsResult c7Super none none none 1 20 c7DB c7SuperList ∧
    (Mentor.mk 100 1 "Title1" "bio one" [] "weekly" 5 0 true, c7Alice) ∈ c7SuperList ∧
    (Mentor.mk 101 2 "Title2" "bio two" [] "weekly" 3 0 true,
      User.mk 2 "b@x.edu" "pw2" "Bob" (some "diff") "alumni" true true) ∈ c7SuperList ∧
    c7Alice.universityId = some "mit" := by
  refine ⟨rfl, rfl, ⟨c7SuperList, List.Perm.refl _, by decide⟩, by decide, by decide, rfl⟩

/-- C7 amended: for an actor with a truthy university (every alumni or
admin), any mentor-listing response contains only users of that
university, and any suggestions response contains only users of the
suggesting actors university; an actor row with a NULL university (the
superadmin) receives no suggestions at all, while its mentor listing is
unscoped. -/
theorem claim_C7_tenant_scoping (actor : User) (t : String) (ht : actor.universityId = some t)
    (htne : t ≠ "") (expertise availability search : Option String) (page pageSize : Nat)
    (db : DB) (resM : List (Mentor × User))
    (hM : ListMentorsResult actor expertise availability search page pageSize db resM)
    (actorId limit : Nat) (resS : List User) (hS : SuggestionsResult actorId limit db resS) :
    (∀ mu ∈ resM, mu.2.universityId = some t) ∧
    (∀ u ∈ resS, ∃ t2, actorUniOf actorId db = some t2 ∧ u.universityId = some t2) ∧
    (actorUniOf actorId db = none → resS = []) := by
  obtain ⟨lM, hpermM, hresM⟩ := hM
  obtain ⟨lS, hpermS, hresS⟩ := hS
  refine ⟨?_, ?_, ?_⟩
  · intro mu hmu
    have hmem : mu ∈ listMentorsFilter actor expertise availability search db := by
      subst hresM
      exact hpermM.mem_iff.mp (List.drop_subset _ _ (List.take_subset _ _ hmu))
    unfold listMentorsFilter at hmem
    rw [List.mem_filter] at hmem
    have hc := hmem.2
    unfold mentorCond at hc
    simp only [Bool.and_eq_true] at hc
    obtain ⟨⟨⟨⟨⟨⟨_hact, _hment⟩, _hact2⟩, hten⟩, _hexp⟩, _hav⟩, _hsr⟩ := hc
    have hTru : strTruthy actor.universityId = true := by
      rw [ht]
      simp [strTruthy, htne]
    rw [if_pos hTru] at hten
    rw [ht] at hten
    simpa using hten
  · intro u hu
    have humem : u ∈ db.users.filter (suggestionFilter actorId db) := by
      subst hresS
      exact hpermS.mem_iff.mp (List.take_subset _ _ hu)
    rw [List.mem_filter] at humem
    have hp := humem.2
    unfold suggestionFilter at hp
    simp only [Bool.and_eq_true] at hp
    obtain ⟨⟨⟨⟨⟨_hid, _hact⟩, _hrole⟩, huni⟩, _hconn⟩, _hreq⟩ := hp
    unfold sqlStrEq at huni
    cases hou : u.universityId with
    | none => rw [hou] at huni; simp at huni
    | some tu =>
      cases hoa : actorUniOf actorId db with
      | none => rw [hou, hoa] at huni; simp at huni
      | some ta =>
        rw [hou, hoa] at huni
        simp at huni
        exact ⟨ta, rfl, by rw [huni]⟩
  · intro hnone
    have hfil : db.users.filter (suggestionFilter actorId db) = [] := by
      rw [List.filter_eq_nil_iff]
      intro u _hu
      have hz : sqlStrEq u.universityId (actorUniOf actorId db) = false := by
        rw [hnone]
        cases u.universityId <;> rfl
      simp [suggestionFilter, hz]
    rw [hfil] at hpermS
    have hlS : lS = [] := List.perm_nil.mp hpermS
    rw [hresS, hlS]
    simp

/-- C7 witness: the amended scoping evaluated on the two-tenant state:
the mit alumni actor receives only mit users, and the superadmin actor
receives no suggestions. -/
theorem claim_C7_witness :
    c7Alice.universityId = some "mit" ∧
    ListMentorsResult c7Alice none none none 1 20 c7DB c7MitList ∧
    SuggestionsResult 9 10 c7DB [] ∧
    (Mentor.mk 100 1 "Title1" "bio one" [] "weekly" 5 0 true, c7Alice) ∈ c7MitList ∧
    (Mentor.mk 100 1 "Title1" "bio one" [] "weekly" 5 0 true, c7Alice).2.universityId = some "mit" ∧
    actorUniOf 9 c7DB = none := by
  have hM : ListMentorsResult c7Alice none none none 1 20 c7DB c7MitList :=
    ⟨c7MitList, List.Perm.refl _, by decide⟩
  have hS : SuggestionsResult 9 10 c7DB [] :=
    ⟨c7DB.users.filter (suggestionFilter 9 c7DB), List.Perm.refl _, by decide⟩
  obtain ⟨h1, _h2, _h3⟩ := claim_C7_tenant_scoping c7Alice "mit" rfl (by decide)
    none none none 1 20 c7DB c7MitList hM 9 10 [] hS
  exact ⟨rfl, hM, hS, by decide, h1 _ (by decide), by decide⟩

/-- Duplicate-free keys make members with equal keys equal. -/
theorem eq_of_nodup_key {α β : Type} [DecidableEq β] {l : List α} {f : α → β} {x y : α}
    (h : (l.map f).Nodup) (hx : x ∈ l) (hy : y ∈ l) (hk : f x = f y) : x = y := by
  by_contra hne
  have h2 := two_le_countP_of_ne hx hy hne (p := fun z => f z == f x) (by simp) (by simp [hk])
  have h1 := countP_key_le_one_of_nodup h (f x)
  omega

/-- The left-join lookup on a present slug inspects the universities
table directly. -/
theorem uniEnabledLookup_some (t : String) (db : DB) :
    uniEnabledLookup (some t) db =
      (db.universities.find? (fun un => un.id == t)).map (fun un => un.isEnabled) := rfl

/-- C9: under the schema uniqueness of emails and university slugs and
nonempty university slugs, the login handler answers a 401 exactly when
the spec-side Unauthorized condition holds, and a token is only issued
when it does not. -/
theorem claim_C9_login_unauthorized_iff (email password : String) (db : DB)
    (hemail : (db.users.map User.email).Nodup)
    (huni : (db.universities.map University.id).Nodup)
    (hslug : ∀ un ∈ db.universities, un.id ≠ "") :
    ((∃ e, login email password db = Except.error e ∧ e.status = 401) ↔
      loginUnauthorizedSpec email password db) ∧
    (∀ uid, login email password db = Except.ok uid →
      ¬ loginUnauthorizedSpec email password db) := by
  have hmain : (∃ e, login email password db = Except.error e ∧ e.status = 401) ↔
      loginUnauthorizedSpec email password db := by
    unfold loginUnauthorizedSpec
    cases hfind : db.users.find? (fun u => u.email == lowerStr email) with
    | none =>
      have hno : ¬ ∃ u ∈ db.users, u.email = lowerStr email := by
        rw [List.find?_eq_none] at hfind
        rintro ⟨u, hum, hue⟩
        exact hfind u hum (by simp [hue])
      constructor
      · intro _
        exact Or.inl hno
      · intro _
        exact ⟨ApiError.mk 401 "Invalid email or password", by simp [login, hfind], rfl⟩
    | some u =>
      have hum : u ∈ db.users := List.mem_of_find?_eq_some hfind
      have hue : u.email = lowerStr email := by
        have := List.find?_some hfind
        simpa using this
      have huniq : ∀ v ∈ db.users, v.email = lowerStr email → v = u := by
        intro v hvm hve
        exact eq_of_nodup_key hemail hvm hum (by rw [hve, hue])
      have hcondIff : ((!(u.role == "superadmin")) && strTruthy u.universityId &&
          (uniEnabledLookup u.universityId db == some false)) = true ↔
          (u.role ≠ "superadmin" ∧
            ∃ un ∈ db.universities, some un.id = u.universityId ∧ un.isEnabled = false) := by
        simp only [Bool.and_eq_true, Bool.not_eq_true']
        constructor
        · rintro ⟨⟨hrole, htru⟩, hlook⟩
          cases hid : u.universityId with
          | none => rw [hid] at htru; simp [strTruthy] at htru
          | some t =>
            rw [hid, uniEnabledLookup_some] at hlook
            cases hf2 : db.universities.find? (fun un => un.id == t) with
            | none => rw [hf2] at hlook; simp at hlook
            | some un =>
              rw [hf2] at hlook
              simp at hlook
              have hun_mem := List.mem_of_find?_eq_some hf2
              have hun_id : un.id = t := by simpa using List.find?_some hf2
              exact ⟨by simpa using hrole, un, hun_mem, by simp [hid, hun_id], hlook⟩
        · rintro ⟨hrole, un, hunm, hunid, hune⟩
          have hid : u.universityId = some un.id := hunid.symm
          refine ⟨⟨by simpa using hrole, ?_⟩, ?_⟩
          · rw [hid]
            simp [strTruthy, hslug un hunm]
          · rw [hid, uniEnabledLookup_some]
            have hf2 : db.universities.find? (fun x => x.id == un.id) = some un :=
              find?_key_of_nodup huni hunm
            rw [hf2]
            simp [hune]
      by_cases hact : u.isActive = true
      · by_cases hcu : ((!(u.role == "superadmin")) && strTruthy u.universityId &&
            (uniEnabledLookup u.universityId db == some false)) = true
        · constructor
          · intro _
            exact Or.inr ⟨u, hum, hue, Or.inr (Or.inr (hcondIff.mp hcu))⟩
          · intro _
            exact ⟨ApiError.mk 401 "University is currently disabled",
              by simp [login, hfind, hact, hcu], rfl⟩
        · have hcu0 : ((!(u.role == "superadmin")) && strTruthy u.universityId &&
              (uniEnabledLookup u.universityId db == some false)) = false := by
            revert hcu
            cases ((!(u.role == "superadmin")) && strTruthy u.universityId &&
              (uniEnabledLookup u.universityId db == some false)) <;> simp
          by_cases hpw : bcryptCompare password u.passwordHash = true
          · have hok : login email password db = Except.ok u.id := by
              simp [login, hfind, hact, hcu0, hpw]
            constructor
            · rintro ⟨e, herr, _⟩
              rw [hok] at herr
              exact absurd herr (by simp)
            · intro hspec
              exfalso
              rcases hspec with hno | ⟨v, hvm, hve, hD⟩
              · exact hno ⟨u, hum, hue⟩
              · have hv : v = u := huniq v hvm hve
                subst hv
                rcases hD with hD | hD | hD
                · rw [hact] at hD
                  exact absurd hD (by simp)
                · rw [hpw] at hD
                  exact absurd hD (by simp)
                · exact hcu (hcondIff.mpr hD)
          · have hpw0 : bcryptCompare password u.passwordHash = false := by
              revert hpw
              cases bcryptCompare password u.passwordHash <;> simp
            constructor
            · intro _
              exact Or.inr ⟨u, hum, hue, Or.inr (Or.inl hpw0)⟩
            · intro _
              exact ⟨ApiError.mk 401 "Invalid email or password",
                by simp [login, hfind, hact, hcu0, hpw0], rfl⟩
      · have hact0 : u.isActive = false := by
          revert hact
          cases u.isActive <;> simp
        constructor
        · intro _
          exact Or.inr ⟨u, hum, hue, Or.inl hact0⟩
        · intro _
          exact ⟨ApiError.mk 401 "Account is deactivated",
            by simp [login, hfind, hact0], rfl⟩
  refine ⟨hmain, ?_⟩
  intro uid hok hspec
  obtain ⟨e, herr, _⟩ := hmain.mpr hspec
  rw [hok] at herr
  exact absurd herr (by simp)

/-- C9 witness on the concrete login state: the active mit alumni logs
in, the disabled-university and deactivated accounts and bad
credentials are all answered with a 401. -/
theorem claim_C9_witness :
    login "alice@x.edu" "secret1" c9DB = Except.ok 1 ∧
    ¬ loginUnauthorizedSpec "alice@x.edu" "secret1" c9DB ∧
    login "bob@x.edu" "secret2" c9DB =
      Except.error (ApiError.mk 401 "University is currently disabled") ∧
    login "carol@x.edu" "secret3" c9DB =
      Except.error (ApiError.mk 401 "Account is deactivated") ∧
    login "alice@x.edu" "wrong" c9DB =
      Except.error (ApiError.mk 401 "Invalid email or password") ∧
    login "nobody@x.edu" "pw" c9DB =
      Except.error (ApiError.mk 401 "Invalid email or password") := by
  obtain ⟨_hiff, hok⟩ := claim_C9_login_unauthorized_iff "alice@x.edu" "secret1" c9DB
    (by decide) (by decide) (by decide)
  have h1 : login "alice@x.edu" "secret1" c9DB = Except.ok 1 := by decide
  exact ⟨h1, hok 1 h1, by decide, by decide, by decide, by decide⟩

/-- Key-preserving maps commute with key filters. -/
theorem filter_key_map {α : Type} {l : List α} {f : α → α} {p : α → Bool}
    (hpf : ∀ x, p (f x) = p x) : (l.map f).filter p = (l.filter p).map f := by
  induction l with
  | nil => rfl
  | cons x t ih =>
    rw [List.map_cons]
    cases hx : p x with
    | true =>
      rw [List.filter_cons_of_pos (by rw [hpf, hx]), List.filter_cons_of_pos hx,
        List.map_cons, ih]
    | false =>
      rw [List.filter_cons_of_neg (by simp [hpf, hx]), List.filter_cons_of_neg (by simp [hx]),
        ih]

/-- A mentorship accept whose unique pending request and unique mentor
row are known succeeds and performs exactly the status flip and the
counter increment. -/
theorem acceptMentorship_success (actorId rid mid : Nat) (db : DB)
    (q : MentorshipRequest) (M : Mentor)
    (hq : db.mentorshipRequests.filter (fun r => r.id == rid) = [q])
    (hqp : q.status = ReqStatus.pending) (hqm : q.mentorId = mid)
    (hM : db.mentors.filter (fun m => m.id == mid) = [M]) (hMu : M.userId = actorId) :
    (acceptMentorship actorId rid none db).1 = Except.ok () ∧
    (acceptMentorship actorId rid none db).2.mentorshipRequests =
      db.mentorshipRequests.map (fun r =>
        if r.id == rid then { r with status := ReqStatus.accepted } else r) ∧
    (acceptMentorship actorId rid none db).2.mentors =
      db.mentors.map (fun mm =>
        if mm.id == mid then { mm with menteesCount := mm.menteesCount + 1 } else mm) := by
  have hfull : db.mentorshipRequests.filter (fun r =>
      r.id == rid && r.status == ReqStatus.pending) = [q] :=
    filter_and_of_filter_singleton hq (by simp [hqp])
  have hfindM : db.mentors.find? (fun m => m.id == q.mentorId) = some M := by
    rw [hqm]
    exact find?_of_filter_singleton hM
  have hjoin : mentorshipJoin rid db = [(q, M)] := by
    unfold mentorshipJoin
    rw [hfull]
    simp [List.filterMap, hfindM]
  have hh : (mentorshipJoin rid db).head? = some (q, M) := by
    rw [hjoin]
    rfl
  have hauth : (!(M.userId == actorId)) = false := by simp [hMu]
  unfold acceptMentorship
  rw [hh]
  simp only [hauth, hqm]
  exact ⟨rfl, rfl, rfl⟩

/-- Batch acceptance raises the mentees counter once per accepted
request. -/
theorem acceptAll_counts (actorId mid : Nat) : ∀ (ids : List Nat) (db : DB) (M : Mentor),
    ids.Nodup →
    (∀ i ∈ ids, ∃ q : MentorshipRequest,
      db.mentorshipRequests.filter (fun r => r.id == i) = [q] ∧
      q.status = ReqStatus.pending ∧ q.mentorId = mid) →
    db.mentors.filter (fun m => m.id == mid) = [M] →
    M.userId = actorId →
    ∃ M2 : Mentor, (acceptAll actorId ids db).mentors.filter (fun m => m.id == mid) = [M2] ∧
      M2.menteesCount = M.menteesCount + ids.length := by
  intro ids
  induction ids with
  | nil =>
    intro db M _ _ hM _
    exact ⟨M, by simpa [acceptAll] using hM, by simp⟩
  | cons i rest ih =>
    intro db M hnd hids hM hMu
    obtain ⟨q, hq, hqp, hqm⟩ := hids i (by simp)
    obtain ⟨_hok, hreqs, hments⟩ := acceptMentorship_success actorId i mid db q M hq hqp hqm hM hMu
    have hMp : (fun m : Mentor => m.id == mid) M = true := by
      have : M ∈ db.mentors.filter (fun m => m.id == mid) := by
        rw [hM]
        simp
      exact (List.mem_filter.mp this).2
    have hM1 : (acceptMentorship actorId i none db).2.mentors.filter (fun m => m.id == mid) =
        [{ M with menteesCount := M.menteesCount + 1 }] := by
      rw [hments, filter_key_map (by intro x; split <;> rfl), hM, List.map_cons, List.map_nil]
      rw [if_pos hMp]
    have hids1 : ∀ j ∈ rest, ∃ q2 : MentorshipRequest,
        (acceptMentorship actorId i none db).2.mentorshipRequests.filter
          (fun r => r.id == j) = [q2] ∧
        q2.status = ReqStatus.pending ∧ q2.mentorId = mid := by
      intro j hj
      obtain ⟨q2, hq2, hq2p, hq2m⟩ := hids j (by simp [hj])
      have hji : j ≠ i := by
        rintro rfl
        exact (List.nodup_cons.mp hnd).1 hj
      have hq2j : q2.id = j := by
        have : q2 ∈ db.mentorshipRequests.filter (fun r => r.id == j) := by
          rw [hq2]
          simp
        simpa using (List.mem_filter.mp this).2
      refine ⟨q2, ?_, hq2p, hq2m⟩
      rw [hreqs, filter_key_map (by intro x; split <;> rfl), hq2, List.map_cons, List.map_nil]
      rw [if_neg (by simp [hq2j, hji])]
    obtain ⟨M2, hfil2, hcnt2⟩ := ih (acceptMentorship actorId i none db).2
      { M with menteesCount := M.menteesCount + 1 } ((List.nodup_cons.mp hnd).2) hids1 hM1 hMu
    refine ⟨M2, ?_, ?_⟩
    · have hstep : acceptAll actorId (i :: rest) db =
          acceptAll actorId rest (acceptMentorship actorId i none db).2 := rfl
      rw [hstep]
      exact hfil2
    · rw [hcnt2]
      simp [List.length_cons]
      omega

/-- C6: accepting a batch of N distinct pending mentorship requests for
mentor M raises the mentees counter of M by exactly N, and rejecting a
mentorship request never changes any mentor row. -/
theorem claim_C6_mentee_counter (actorId mid : Nat) (M : Mentor) (ids : List Nat) (db : DB)
    (hnd : ids.Nodup)
    (hids : ∀ i ∈ ids, ∃ q : MentorshipRequest,
      db.mentorshipRequests.filter (fun r => r.id == i) = [q] ∧
      q.status = ReqStatus.pending ∧ q.mentorId = mid)
    (hM : db.mentors.filter (fun m => m.id == mid) = [M])
    (hMu : M.userId = actorId) :
    (∃ M2 : Mentor, (acceptAll actorId ids db).mentors.filter (fun m => m.id == mid) = [M2] ∧
      M2.menteesCount = M.menteesCount + ids.length) ∧
    (∀ a rid2 : Nat, ∀ d : DB, (rejectMentorship a rid2 d).2.mentors = d.mentors) := by
  have hrej : ∀ a rid2 : Nat, ∀ d : DB, (rejectMentorship a rid2 d).2.mentors = d.mentors := by
    intro a rid2 d
    simp only [rejectMentorship]
    split <;> rfl
  exact ⟨acceptAll_counts actorId mid ids db M hnd hids hM hMu, hrej⟩

/-- C6 witness: accepting the two distinct pending requests 11 and 12
takes mentor 100 from zero to two mentees, and rejecting request 13
leaves the mentor rows untouched. -/
theorem claim_C6_witness :
    c6DB.mentors.filter (fun m => m.id == 100) = [c6M] ∧
    (acceptAll 2 [11, 12] c6DB).mentors.filter (fun m => m.id == 100) =
      [{ c6M with menteesCount := c6M.menteesCount + 2 }] ∧
    (rejectMentorship 2 13 c6DB).2.mentors = c6DB.mentors := by
  have hids : ∀ i ∈ [11, 12], ∃ q : MentorshipRequest,
      c6DB.mentorshipRequests.filter (fun r => r.id == i) = [q] ∧
      q.status = ReqStatus.pending ∧ q.mentorId = 100 := by
    intro i hi
    simp at hi
    rcases hi with rfl | rfl
    · exact ⟨MentorshipRequest.mk 11 100 3 "hi" ReqStatus.pending, by decide, rfl, rfl⟩
    · exact ⟨MentorshipRequest.mk 12 100 4 "hey" ReqStatus.pending, by decide, rfl, rfl⟩
  obtain ⟨⟨_M2, _hf, _hc⟩, hrej⟩ :=
    claim_C6_mentee_counter 2 100 c6M [11, 12] c6DB (by decide) hids (by decide) rfl
  exact ⟨by decide, by decide, hrej 2 13 c6DB⟩
